import Mathlib

/-!
# The add-new-torrent dialog (src/gui/addnewtorrentdialog.cpp)

A shallow embedding of the dialog: its member variables, the widgets it drives and the
singletons it talks to (session, settings store) are fields of one explicit state record,
every member function is a function on that record, and every call made on a collaborator
is appended to a call log.  Services that live outside this file (file system helpers,
the directory comparison of Qt, the magnet parser) are fields of a host record.

Qt delivers signals from its event loop; a slot is embedded as the function it is, and it
runs where this file calls it.
-/

namespace AddNewTorrentDialog

/-! ## Values -/

/-- QString, a sequence of characters. -/
abbrev QString := List Char

/-- QStringList. -/
abbrev QStringList := List QString

/-- TriStateBool of base/tristatebool.h. -/
inductive TriStateBool where
  | Undefined
  | False
  | True
  deriving DecidableEq, Repr

/-- Conversion TriStateBool(bool). -/
def TriStateBool.ofBool (b : Bool) : TriStateBool :=
  if b then TriStateBool.True else TriStateBool.False

/-- One file of a torrent: its path inside the torrent and its size in bytes. -/
structure FileEntry where
  path : QString
  size : Nat
  deriving DecidableEq, Repr

/-- The metadata snapshot, BitTorrent::TorrentInfo, as far as the dialog reads it. -/
structure TorrentInfo where
  isValid : Bool
  hash : QString
  name : QString
  isPrivate : Bool
  trackers : QStringList
  urlSeeds : QStringList
  comment : QString
  creationDate : Option QString
  files : List FileEntry
  deriving DecidableEq, Repr

/-- Default constructed TorrentInfo: not valid. -/
def TorrentInfo.null : TorrentInfo :=
  ⟨false, [], [], false, [], [], [], none, []⟩

/-- BitTorrent::MagnetUri as far as the dialog reads it. -/
structure MagnetUri where
  isValid : Bool
  hash : QString
  name : QString
  trackers : QStringList
  urlSeeds : QStringList
  deriving DecidableEq, Repr

/-- A torrent the session already manages, BitTorrent::TorrentHandle. -/
structure TorrentHandle where
  hash : QString
  name : QString
  isPrivate : Bool
  deriving DecidableEq, Repr

/-- BitTorrent::AddTorrentParams, the pending parameter bundle. -/
structure AddTorrentParams where
  name : QString
  category : QString
  savePath : QString
  disableTempPath : Bool
  sequential : Bool
  firstLastPiecePriority : Bool
  addForced : TriStateBool
  addPaused : TriStateBool
  filePriorities : List Int
  ignoreShareLimits : Bool
  skipChecking : Bool
  createSubfolder : TriStateBool
  useAutoTMM : TriStateBool
  deriving DecidableEq, Repr

/-- Default constructed AddTorrentParams. -/
def AddTorrentParams.default : AddTorrentParams :=
  ⟨[], [], [], false, false, false, TriStateBool.Undefined, TriStateBool.Undefined, [], false,
    false, TriStateBool.Undefined, TriStateBool.Undefined⟩

/-- TorrentFileGuard: the source file path, whether it was handed to the session, and the
auto-remove switch. -/
structure TorrentFileGuard where
  path : QString
  wasAdded : Bool
  autoRemove : Bool
  deriving DecidableEq, Repr

/-- A QModelIndex of the content tree: the row taken at each level, from the top level
down.  The empty list is the invalid index (the hidden root). -/
abbrev ModelIndex := List Nat

/-- A row of the content tree: a file leaf with its index in the torrent, or a folder. -/
inductive ContentItem where
  | file (name : QString) (fileIndex : Nat)
  | folder (name : QString) (children : List ContentItem)
  deriving Repr

/-- The content model behind the tree view: the rows under the hidden root and the
priority of every file, in file order (getFilePriorities). -/
structure ContentModel where
  rootItems : List ContentItem
  filePriorities : List Int
  deriving Repr

/-- The texts of the modal alerts this file raises. -/
inductive Alert where
  | fileDoesNotExist (path : QString)
  | fileNotReadable (path : QString)
  | invalidTorrent (path : QString)
  | invalidMagnet
  | alreadyPresentPrivate (name : QString)
  | alreadyPresentTorrentMerged (name : QString)
  | alreadyPresentMagnetMerged (name : QString)
  | cannotAddTorrent
  | renameNameInvalid
  | renameFileNameInUse
  | renameFolderNameInUse
  | invalidMetadata
  | downloadError (url reason : QString)
  deriving DecidableEq, Repr

/-- A call made on a collaborator or on the dialog base class, in program order. -/
inductive Call where
  | critical (a : Alert)
  | information (a : Alert)
  | warning (a : Alert)
  | addTrackers (torrent : QString) (trackers : QStringList)
  | addUrlSeeds (torrent : QString) (urlSeeds : QStringList)
  | connectMetadataLoaded
  | disconnectMetadataLoaded
  | loadMetadata (hash : QString)
  | cancelLoadMetadata (hash : QString)
  | addTorrentHash (hash : QString) (params : AddTorrentParams)
  | addTorrentInfo (info : TorrentInfo) (params : AddTorrentParams)
  | setDefaultSavePath (path : QString)
  | markAsAddedToSession
  | downloadUrl (url : QString)
  | renameFile (index : Nat) (newPath : QString)
  | setData (index : ModelIndex) (name : QString)
  | dialogOpen
  | dialogDelete
  | dialogAccept
  | dialogReject
  deriving DecidableEq, Repr

/-! ## Collaborators -/

/-- The answers of BitTorrent::Session the dialog asks for. -/
structure Session where
  isKnownTorrent : QString → Bool
  findTorrent : QString → Option TorrentHandle
  defaultSavePath : QString
  categorySavePath : QString → QString
  categories : QStringList
  isAddTorrentPaused : Bool
  isAutoTMMDisabledByDefault : Bool
  isCreateTorrentSubfolder : Bool

/-- The part of the settings store this file reads and writes.  The field
savePathHistoryLength is the value held by the cached setting of that key. -/
structure Settings where
  savePathHistory : QStringList
  savePathHistoryLength : Int
  defaultCategory : QString
  enabled : Bool
  expanded : Bool

/-- Services declared outside this file.  The dialog only calls them; each is a field. -/
structure Host where
  /-- Value of minPathHistoryLength (declared in the class header). -/
  minPathHistoryLength : Int
  /-- Value of maxPathHistoryLength (declared in the class header). -/
  maxPathHistoryLength : Int
  /-- Whether Q_OS_UNIX or Q_WS_QWS is defined for the build. -/
  unixBuild : Bool
  /-- Case folding used by Qt::CaseInsensitive comparisons. -/
  foldCase : Char → Char
  /-- QChar::isSpace, the white space QString::trimmed removes. -/
  isSpace : Char → Bool
  /-- The reserved temporary-file suffix QB_EXT. -/
  QB_EXT : QString
  /-- Utils::Misc::isUrl -/
  isUrl : QString → Bool
  /-- Constructor BitTorrent::MagnetUri(source). -/
  parseMagnet : QString → MagnetUri
  /-- QUrl::fromEncoded(path.toLocal8Bit()).toLocalFile() -/
  toLocalFile : QString → QString
  /-- QFile::exists -/
  fileExists : QString → Bool
  /-- QFileInfo::isReadable -/
  isReadable : QString → Bool
  /-- BitTorrent::TorrentInfo::loadFromFile -/
  loadFromFile : QString → TorrentInfo
  /-- Utils::Fs::isValidFileSystemName -/
  isValidFileSystemName : QString → Bool
  /-- Utils::Fs::sameFileNames -/
  sameFileNames : QString → QString → Bool
  /-- Utils::Fs::expandPath -/
  expandPath : QString → QString
  /-- Utils::Fs::toNativePath -/
  toNativePath : QString → QString
  /-- The identity Qt compares two QDir objects by (operator== of QDir). -/
  dirKey : QString → QString
  /-- QDir::absolutePath of QDir(path). -/
  absolutePath : QString → QString
  /-- Utils::Misc::parseHtmlLinks -/
  parseHtmlLinks : QString → QString
  /-- Sorting with Utils::String::naturalLessThan, case insensitive. -/
  naturalSort : QStringList → QStringList
  /-- Whether TorrentFileGuard::autoDeleteMode() is Never. -/
  autoDeleteNever : Bool

/-- Comparison QDir(a) == QDir(b). -/
def Host.sameDir (h : Host) (a b : QString) : Bool :=
  decide (h.dirKey a = h.dirKey b)

/-! ## The dialog state -/

/-- The dialog with everything it reads and writes: the two singletons, the call log, the
member variables (m_ names as in the class) and the widgets of the form (widget name, then
the property). -/
structure State where
  session : Session
  settings : Settings
  calls : List Call
  m_contentModel : Option ContentModel
  m_hasMetadata : Bool
  m_filePath : QString
  m_hash : QString
  m_torrentInfo : TorrentInfo
  m_oldIndex : Int
  m_torrentGuard : Option TorrentFileGuard
  m_torrentParams : AddTorrentParams
  windowTitle : QString
  lblMetaLoading_visible : Bool
  lblMetaLoading_text : QString
  progMetaLoading_visible : Bool
  savePath_items : QStringList
  savePath_currentIndex : Int
  savePath_text : QString
  savePath_signalsBlocked : Bool
  groupBoxSavePath_enabled : Bool
  comboTTM_currentIndex : Int
  categoryComboBox_items : QStringList
  categoryComboBox_currentText : QString
  defaultSavePathCheckBox_visible : Bool
  defaultSavePathCheckBox_checked : Bool
  defaultCategoryCheckbox_checked : Bool
  startTorrentCheckBox_checked : Bool
  createSubfolderCheckBox_checked : Bool
  skipCheckingCheckBox_checked : Bool
  doNotDeleteTorrentCheckBox_visible : Bool
  never_show_cb_checked : Bool
  adv_button_checked : Bool
  adv_button_enabled : Bool
  settings_group_visible : Bool
  infoGroup_visible : Bool
  contentTreeView_visible : Bool
  contentTreeView_selectedRows : List ModelIndex
  lblhash_text : QString
  commentLabel_text : QString
  date_lbl_text : Option QString
  size_lbl_torrentSize : Nat
  size_lbl_freeSpacePath : QString

/-- Append one call to the log. -/
def State.call (s : State) (c : Call) : State :=
  { s with calls := s.calls ++ [c] }

/-! ## Qt values and widgets -/

/-- QString::startsWith(pattern, Qt::CaseSensitive). -/
def startsWith (s pattern : QString) : Bool :=
  pattern.isPrefixOf s

/-- QString::startsWith(pattern, Qt::CaseInsensitive), with the case folding of the host. -/
def startsWithFolded (fold : Char → Char) (s pattern : QString) : Bool :=
  (pattern.map fold).isPrefixOf (s.map fold)

/-- QString::endsWith(pattern). -/
def endsWith (s pattern : QString) : Bool :=
  pattern.reverse.isPrefixOf s.reverse

/-- QString::chop(n): drop the last n characters. -/
def chop (s : QString) (n : Nat) : QString :=
  s.take (s.length - n)

/-- QString::trimmed(): the characters QChar::isSpace holds for are removed from both ends.
The first argument is QChar::isSpace. -/
def trimmed (isSpace : Char → Bool) (s : QString) : QString :=
  ((s.dropWhile isSpace).reverse.dropWhile isSpace).reverse

/-- QStringList::join(separator). -/
def join (items : QStringList) (sep : QString) : QString :=
  sep.intercalate items

/-- QList::mid(0, length): the first length elements; a negative length, or one past the
end, gives the whole list. -/
def mid0 (l : QStringList) (length : Int) : QStringList :=
  if length < 0 then l else l.take length.toNat

/-- Selected path of the save path edit: FileSystemPathEdit::selectedPath(). -/
def State.selectedPath (s : State) : QString :=
  s.savePath_text

/-- Number of entries of the save path combo box. -/
def State.savePath_count (s : State) : Int :=
  s.savePath_items.length

/-- QComboBox::clear on the save path edit. -/
def savePath_clear (s : State) : State :=
  { s with savePath_items := [], savePath_currentIndex := -1, savePath_text := [] }

/-- QComboBox::addItem on the save path edit: the entry goes last; the first entry of an
empty box becomes the current one. -/
def savePath_addItem (s : State) (text : QString) : State :=
  if s.savePath_items = [] then
    { s with savePath_items := [text], savePath_currentIndex := 0, savePath_text := text }
  else
    { s with savePath_items := s.savePath_items ++ [text] }

/-- QComboBox::insertItem(0, text) on the save path edit: the entry goes first and the
current entry stays the current one, one row further down. -/
def savePath_insertItem0 (s : State) (text : QString) : State :=
  if s.savePath_items = [] then
    { s with savePath_items := [text], savePath_currentIndex := 0, savePath_text := text }
  else
    { s with savePath_items := text :: s.savePath_items,
             savePath_currentIndex :=
               if 0 ≤ s.savePath_currentIndex then s.savePath_currentIndex + 1
               else s.savePath_currentIndex }

/-- QComboBox::setCurrentIndex on the save path edit: an index outside the box clears the
selection. -/
def savePath_setCurrentIndex (s : State) (index : Int) : State :=
  if 0 ≤ index ∧ index < s.savePath_count then
    { s with savePath_currentIndex := index,
             savePath_text := s.savePath_items.getD index.toNat [] }
  else
    { s with savePath_currentIndex := -1, savePath_text := [] }

/-- FileSystemPathEdit::setSelectedPath: the edit text is replaced, the entries stay. -/
def savePath_setSelectedPath (s : State) (path : QString) : State :=
  { s with savePath_text := path }

/-! ## The metadata snapshot and the content model -/

/-- Modelled from the spec: TorrentInfo::filesCount (torrentinfo.cpp is not part of the
sources), the number of per-file entries of the snapshot. -/
def TorrentInfo.filesCount (t : TorrentInfo) : Nat :=
  t.files.length

/-- Modelled from the spec: TorrentInfo::filePath (torrentinfo.cpp is not part of the
sources), the path of file i of the snapshot. -/
def TorrentInfo.filePath (t : TorrentInfo) (i : Nat) : QString :=
  match t.files[i]? with
  | some f => f.path
  | none => []

/-- Modelled from the spec: TorrentInfo::fileSize (torrentinfo.cpp is not part of the
sources), the size of file i of the snapshot. -/
def TorrentInfo.fileSize (t : TorrentInfo) (i : Nat) : Nat :=
  match t.files[i]? with
  | some f => f.size
  | none => 0

/-- Modelled from the spec: TorrentInfo::totalSize (torrentinfo.cpp is not part of the
sources), the sum of the file sizes. -/
def TorrentInfo.totalSize (t : TorrentInfo) : Nat :=
  (t.files.map FileEntry.size).sum

/-- Modelled from the spec: TorrentInfo::fileName (torrentinfo.cpp is not part of the
sources), the path of file i from behind its last separator on. -/
def TorrentInfo.fileName (t : TorrentInfo) (i : Nat) : QString :=
  ((t.filePath i).reverse.takeWhile (fun c => c != '/')).reverse

/-- Modelled from the spec: TorrentInfo::renameFile (torrentinfo.cpp is not part of the
sources), the in-memory rename: file index of a valid snapshot gets the new path. -/
def TorrentInfo.renameFile (t : TorrentInfo) (index : Nat) (newPath : QString) : TorrentInfo :=
  if t.isValid then
    { t with files := t.files.modify (fun f => { f with path := newPath }) index }
  else t

/-- Name shown in column 0 of a row. -/
def ContentItem.name : ContentItem → QString
  | ContentItem.file n _ => n
  | ContentItem.folder n _ => n

/-- Rename a row (setData on column 0). -/
def ContentItem.setName (n : QString) : ContentItem → ContentItem
  | ContentItem.file _ i => ContentItem.file n i
  | ContentItem.folder _ ch => ContentItem.folder n ch

/-- The row a model index points at, none for an index that is not valid. -/
def itemAt : List ContentItem → ModelIndex → Option ContentItem
  | _, [] => none
  | items, [r] => items[r]?
  | items, r :: r2 :: rest =>
    match items[r]? with
    | some (ContentItem.folder _ ch) => itemAt ch (r2 :: rest)
    | _ => none

/-- The rows with the row at the model index renamed. -/
def renameAt (n : QString) : List ContentItem → ModelIndex → List ContentItem
  | items, [] => items
  | items, [r] => items.modify (ContentItem.setName n) r
  | items, r :: r2 :: rest =>
    match items[r]? with
    | some (ContentItem.folder m ch) =>
      items.set r (ContentItem.folder m (renameAt n ch (r2 :: rest)))
    | _ => items

/-- Whether a row is the folder of the given name (childFolderWithName). -/
def isFolderNamed (n : QString) : ContentItem → Bool
  | ContentItem.folder m _ => decide (m = n)
  | ContentItem.file _ _ => false

/-- Modelled from the spec: one step of TorrentContentModel::setupModelData
(torrentcontentmodel.cpp is not part of the sources): walk down the folders of a file
path, creating the missing ones, and append the leaf row of the file. -/
def appendFileItem (items : List ContentItem) (pathFolders : QStringList) (fileName : QString)
    (fileIndex : Nat) : List ContentItem :=
  match pathFolders with
  | [] => items ++ [ContentItem.file fileName fileIndex]
  | pathPart :: rest =>
    match items.findIdx? (isFolderNamed pathPart) with
    | some k =>
      match items[k]? with
      | some (ContentItem.folder m ch) =>
        items.set k (ContentItem.folder m (appendFileItem ch rest fileName fileIndex))
      | _ => items
    | none =>
      items ++ [ContentItem.folder pathPart (appendFileItem [] rest fileName fileIndex)]

/-- Modelled from the spec: TorrentContentModel::setupModelData (torrentcontentmodel.cpp
is not part of the sources): one leaf row per file plus the enclosing folders, every file
at normal priority. -/
def setupModelData (info : TorrentInfo) : ContentModel :=
  { rootItems :=
      (List.range info.filesCount).foldl
        (fun items i =>
          appendFileItem items
            (((info.filePath i).splitOn '/').filter (fun part => part != [])).dropLast
            (info.fileName i) i)
        [],
    filePriorities := List.replicate info.filesCount 1 }

/-! ## Member functions -/

/-- AddNewTorrentDialog::savePathHistoryLength -/
def savePathHistoryLength (st : Settings) : Int :=
  st.savePathHistoryLength

/-- The proxy of savePathHistoryLengthSetting, applied to the value loaded from the store
when the cached setting is created: max(minPathHistoryLength, min(maxPathHistoryLength, v)). -/
def savePathHistoryLengthProxy (h : Host) (v : Int) : Int :=
  max h.minPathHistoryLength (min h.maxPathHistoryLength v)

/-- AddNewTorrentDialog::setSavePathHistoryLength.  The two Q_ASSERT lines state the
precondition minPathHistoryLength ≤ value ≤ maxPathHistoryLength. -/
def setSavePathHistoryLength (value : Int) (st : Settings) : Settings :=
  let oldValue := savePathHistoryLength st
  if oldValue ≠ value then
    { st with savePathHistoryLength := value,
              savePathHistory := mid0 st.savePathHistory value }
  else st

/-- AddNewTorrentDialog::showAdvancedSettings (the layout moves are not part of the state). -/
def showAdvancedSettings (s : State) (showIt : Bool) : State :=
  if showIt then
    { s with settings_group_visible := true, infoGroup_visible := true,
             contentTreeView_visible := s.m_hasMetadata }
  else
    { s with settings_group_visible := false, infoGroup_visible := false }

/-- AddNewTorrentDialog::saveSavePathHistory -/
def saveSavePathHistory (h : Host) (s : State) : State :=
  let selectedSavePath := s.selectedPath
  let history := s.settings.savePathHistory
  let history :=
    if (history.length : Int) > savePathHistoryLength s.settings then
      mid0 history (savePathHistoryLength s.settings)
    else history
  if !(history.any (fun dir => h.sameDir dir selectedSavePath)) then
    let history := h.absolutePath selectedSavePath :: history
    let history :=
      if (history.length : Int) > savePathHistoryLength s.settings then history.dropLast
      else history
    { s with settings := { s.settings with savePathHistory := history } }
  else s

/-- The loop of AddNewTorrentDialog::indexOfSavePath from row i on. -/
def indexOfSavePathFrom (h : Host) (savePath : QString) : Nat → QStringList → Int
  | _, [] => -1
  | i, item :: rest =>
    if h.sameDir item savePath then (i : Int)
    else indexOfSavePathFrom h savePath (i + 1) rest

/-- AddNewTorrentDialog::indexOfSavePath -/
def indexOfSavePath (h : Host) (s : State) (savePath : QString) : Int :=
  indexOfSavePathFrom h savePath 0 s.savePath_items

/-- The size loop of updateDiskSpaceLabel: the sizes of the files with a priority above
zero, added up in an unsigned 64 bit counter. -/
def wantedSize (priorities : List Int) (info : TorrentInfo) : Nat :=
  (List.range priorities.length).foldl
    (fun torrentSize i =>
      if priorities.getD i 0 > 0 then (torrentSize + info.fileSize i) % 2 ^ 64
      else torrentSize)
    0

/-- AddNewTorrentDialog::updateDiskSpaceLabel -/
def updateDiskSpaceLabel (s : State) : State :=
  let torrentSize : Nat :=
    if s.m_hasMetadata then
      match s.m_contentModel with
      | some model => wantedSize model.filePriorities s.m_torrentInfo
      | none => s.m_torrentInfo.totalSize % 2 ^ 64
    else 0
  { s with size_lbl_torrentSize := torrentSize, size_lbl_freeSpacePath := s.selectedPath }

/-- AddNewTorrentDialog::onSavePathChanged -/
def onSavePathChanged (h : Host) (newPath : QString) (s : State) : State :=
  let s := { s with defaultSavePathCheckBox_checked := false }
  let s := { s with defaultSavePathCheckBox_visible :=
                      !(h.sameDir newPath s.session.defaultSavePath) }
  let s := { s with m_oldIndex := s.savePath_currentIndex }
  updateDiskSpaceLabel s

/-- AddNewTorrentDialog::categoryChanged -/
def categoryChanged (h : Host) (s : State) : State :=
  if s.comboTTM_currentIndex = 1 then
    let savePath := s.session.categorySavePath s.categoryComboBox_currentText
    savePath_setSelectedPath s (h.toNativePath savePath)
  else s

/-- AddNewTorrentDialog::setSavePath -/
def setSavePath (h : Host) (newPath : QString) (s : State) : State :=
  let existingIndex := indexOfSavePath h s newPath
  if existingIndex < 0 then
    let s := savePath_insertItem0 s newPath
    let s := savePath_setCurrentIndex s 0
    onSavePathChanged h newPath s
  else
    let s := savePath_setCurrentIndex s existingIndex
    onSavePathChanged h newPath s

/-- AddNewTorrentDialog::populateSavePathComboBox -/
def populateSavePathComboBox (h : Host) (s : State) : State :=
  let defSavePath := s.session.defaultSavePath
  let s := savePath_clear s
  let s := savePath_addItem s defSavePath
  let s := s.settings.savePathHistory.foldl
    (fun s savePath => if !(h.sameDir savePath defSavePath) then savePath_addItem s savePath else s)
    s
  if !s.m_torrentParams.savePath.isEmpty then setSavePath h s.m_torrentParams.savePath s
  else s

/-- AddNewTorrentDialog::TMMChanged -/
def TMMChanged (h : Host) (index : Int) (s : State) : State :=
  if index ≠ 1 then
    let s := populateSavePathComboBox h s
    let s := { s with groupBoxSavePath_enabled := true }
    let s := { s with savePath_signalsBlocked := false }
    let s := savePath_setCurrentIndex s
      (if s.m_oldIndex < s.savePath_count then s.m_oldIndex else s.savePath_count - 1)
    { s with adv_button_enabled := true }
  else
    let s := { s with groupBoxSavePath_enabled := false }
    let s := { s with savePath_signalsBlocked := true }
    let s := savePath_clear s
    let savePath := s.session.categorySavePath s.categoryComboBox_currentText
    let s := savePath_addItem s savePath
    let s := { s with defaultSavePathCheckBox_visible := false }
    let s := { s with adv_button_checked := true }
    let s := { s with adv_button_enabled := false }
    showAdvancedSettings s true

/-- AddNewTorrentDialog::setCommentText (the height of the scroll area is not part of the
state). -/
def setCommentText (s : State) (str : QString) : State :=
  { s with commentLabel_text := str }

/-- AddNewTorrentDialog::setMetadataProgressIndicator -/
def setMetadataProgressIndicator (s : State) (visibleIndicator : Bool) (labelText : QString) :
    State :=
  { s with lblMetaLoading_visible := true, lblMetaLoading_text := labelText,
           progMetaLoading_visible := visibleIndicator }

/-- AddNewTorrentDialog::setupTreeview (header state, hidden columns and the expanded root
row are view details outside the state). -/
def setupTreeview (h : Host) (s : State) : State :=
  let s :=
    if !s.m_hasMetadata then
      let s := setCommentText s "Not Available".toList
      { s with date_lbl_text := none }
    else
      let s := { s with windowTitle := s.m_torrentInfo.name }
      let s := setCommentText s (h.parseHtmlLinks s.m_torrentInfo.comment)
      let s := { s with date_lbl_text := s.m_torrentInfo.creationDate }
      { s with m_contentModel := some (setupModelData s.m_torrentInfo) }
  let s := updateDiskSpaceLabel s
  showAdvancedSettings s s.settings.expanded

/-- The value loadTorrent gives m_filePath: the local file of a file URL, else the path
as it came. -/
def torrentFilePath (h : Host) (torrentPath : QString) : QString :=
  if startsWithFolded Char.toLower torrentPath "file://".toList then h.toLocalFile torrentPath
  else torrentPath

/-- AddNewTorrentDialog::loadTorrent: the returned flag and the state afterwards. -/
def loadTorrent (h : Host) (torrentPath : QString) (s : State) : Bool × State :=
  let s := { s with m_filePath := torrentFilePath h torrentPath }
  if !h.fileExists s.m_filePath then
    (false, s.call (Call.critical (Alert.fileDoesNotExist s.m_filePath)))
  else if !h.isReadable s.m_filePath then
    (false, s.call (Call.critical (Alert.fileNotReadable s.m_filePath)))
  else
    let s := { s with m_hasMetadata := true }
    let s := { s with m_torrentInfo := h.loadFromFile s.m_filePath }
    if !s.m_torrentInfo.isValid then
      (false, s.call (Call.critical (Alert.invalidTorrent s.m_filePath)))
    else
      let s := { s with m_torrentGuard := some ⟨s.m_filePath, false, true⟩ }
      let s := { s with m_hash := s.m_torrentInfo.hash }
      if s.session.isKnownTorrent s.m_hash then
        match s.session.findTorrent s.m_hash with
        | some torrent =>
          if torrent.isPrivate || s.m_torrentInfo.isPrivate then
            (false, s.call (Call.critical (Alert.alreadyPresentPrivate torrent.name)))
          else
            let s := s.call (Call.addTrackers torrent.hash s.m_torrentInfo.trackers)
            let s := s.call (Call.addUrlSeeds torrent.hash s.m_torrentInfo.urlSeeds)
            (false, s.call (Call.information (Alert.alreadyPresentTorrentMerged torrent.name)))
        | none =>
          (false, s.call (Call.critical Alert.cannotAddTorrent))
      else
        let s := { s with lblhash_text := s.m_hash }
        let s := setupTreeview h s
        let s := TMMChanged h s.comboTTM_currentIndex s
        (true, s)

/-- AddNewTorrentDialog::loadMagnet: the returned flag and the state afterwards. -/
def loadMagnet (h : Host) (magnetUri : MagnetUri) (s : State) : Bool × State :=
  if !magnetUri.isValid then
    (false, s.call (Call.critical Alert.invalidMagnet))
  else
    let s := { s with m_torrentGuard := some ⟨[], false, true⟩ }
    let s := { s with m_hash := magnetUri.hash }
    if s.session.isKnownTorrent s.m_hash then
      match s.session.findTorrent s.m_hash with
      | some torrent =>
        if torrent.isPrivate then
          (false, s.call (Call.critical (Alert.alreadyPresentPrivate torrent.name)))
        else
          let s := s.call (Call.addTrackers torrent.hash magnetUri.trackers)
          let s := s.call (Call.addUrlSeeds torrent.hash magnetUri.urlSeeds)
          (false, s.call (Call.information (Alert.alreadyPresentMagnetMerged torrent.name)))
      | none =>
        (false, s.call (Call.critical Alert.cannotAddTorrent))
    else
      let s := s.call Call.connectMetadataLoaded
      let torrentName := magnetUri.name
      let s := { s with windowTitle :=
        if torrentName.isEmpty then "Magnet link".toList else torrentName }
      let s := setupTreeview h s
      let s := TMMChanged h s.comboTTM_currentIndex s
      let s := s.call (Call.loadMetadata magnetUri.hash)
      let s := setMetadataProgressIndicator s true "Retrieving metadata...".toList
      let s := { s with lblhash_text := s.m_hash }
      (true, s)

/-- The constructor AddNewTorrentDialog(inParams, parent), given the two singletons as
they are when the dialog is created. -/
def construct (h : Host) (session : Session) (settings : Settings) (inParams : AddTorrentParams) :
    State :=
  let s : State :=
    { session := session, settings := settings, calls := [],
      m_contentModel := none, m_hasMetadata := false, m_filePath := [], m_hash := [],
      m_torrentInfo := TorrentInfo.null, m_oldIndex := 0, m_torrentGuard := none,
      m_torrentParams := inParams,
      windowTitle := [], lblMetaLoading_visible := false, lblMetaLoading_text := [],
      progMetaLoading_visible := false,
      savePath_items := [], savePath_currentIndex := -1, savePath_text := [],
      savePath_signalsBlocked := false, groupBoxSavePath_enabled := true,
      comboTTM_currentIndex := 0,
      categoryComboBox_items := [], categoryComboBox_currentText := [],
      defaultSavePathCheckBox_visible := true, defaultSavePathCheckBox_checked := false,
      defaultCategoryCheckbox_checked := false,
      startTorrentCheckBox_checked := false, createSubfolderCheckBox_checked := false,
      skipCheckingCheckBox_checked := false, doNotDeleteTorrentCheckBox_visible := true,
      never_show_cb_checked := false, adv_button_checked := false, adv_button_enabled := true,
      settings_group_visible := true, infoGroup_visible := true,
      contentTreeView_visible := true, contentTreeView_selectedRows := [],
      lblhash_text := [], commentLabel_text := [], date_lbl_text := none,
      size_lbl_torrentSize := 0, size_lbl_freeSpacePath := [] }
  let s := { s with startTorrentCheckBox_checked :=
    if s.m_torrentParams.addPaused = TriStateBool.True then false
    else if s.m_torrentParams.addPaused = TriStateBool.False then true
    else !session.isAddTorrentPaused }
  let s := { s with comboTTM_currentIndex := if !session.isAutoTMMDisabledByDefault then 1 else 0 }
  let s := populateSavePathComboBox h s
  let s := { s with defaultSavePathCheckBox_visible := false }
  let s := { s with createSubfolderCheckBox_checked :=
    if s.m_torrentParams.createSubfolder = TriStateBool.True then true
    else if s.m_torrentParams.createSubfolder = TriStateBool.False then false
    else session.isCreateTorrentSubfolder }
  let s := { s with skipCheckingCheckBox_checked := s.m_torrentParams.skipChecking }
  let s := { s with doNotDeleteTorrentCheckBox_visible := !h.autoDeleteNever }
  let categories := h.naturalSort session.categories
  let defaultCategory := settings.defaultCategory
  let items : QStringList :=
    (if !s.m_torrentParams.category.isEmpty then [s.m_torrentParams.category] else [])
      ++ (if !defaultCategory.isEmpty then [defaultCategory] else [])
      ++ [[]]
      ++ categories.filter
          (fun category => category != defaultCategory && category != s.m_torrentParams.category)
  let s := { s with categoryComboBox_items := items,
                    categoryComboBox_currentText := items.headD [] }
  { s with adv_button_checked := settings.expanded }

/-- What became of the dialog object at the end of show or of a download handler. -/
inductive Outcome where
  | opened (s : State)
  | deleted (s : State)
  | downloading (s : State)

/-- The state carried by an outcome. -/
def Outcome.state : Outcome → State
  | Outcome.opened s => s
  | Outcome.deleted s => s
  | Outcome.downloading s => s

/-- Whether the dialog was opened (open or exec was called on it). -/
def Outcome.isOpened : Outcome → Bool
  | Outcome.opened _ => true
  | _ => false

/-- AddNewTorrentDialog::show(source, inParams, parent) -/
def «show» (h : Host) (session : Session) (settings : Settings) (source : QString)
    (inParams : AddTorrentParams) : Outcome :=
  let dlg := construct h session settings inParams
  if h.isUrl source then
    Outcome.downloading (dlg.call (Call.downloadUrl source))
  else
    let magnetUri := h.parseMagnet source
    let r := if magnetUri.isValid then loadMagnet h magnetUri dlg else loadTorrent h source dlg
    if r.1 then Outcome.opened (r.2.call Call.dialogOpen)
    else Outcome.deleted (r.2.call Call.dialogDelete)

/-- AddNewTorrentDialog::handleDownloadFailed -/
def handleDownloadFailed (url reason : QString) (s : State) : Outcome :=
  Outcome.deleted ((s.call (Call.critical (Alert.downloadError url reason))).call Call.dialogDelete)

/-- AddNewTorrentDialog::handleRedirectedToMagnet -/
def handleRedirectedToMagnet (h : Host) (magnetUri : QString) (s : State) : Outcome :=
  let r := loadMagnet h (h.parseMagnet magnetUri) s
  if r.1 then Outcome.opened (r.2.call Call.dialogOpen)
  else Outcome.deleted (r.2.call Call.dialogDelete)

/-- AddNewTorrentDialog::handleDownloadFinished -/
def handleDownloadFinished (h : Host) (filePath : QString) (s : State) : Outcome :=
  let r := loadTorrent h filePath s
  if r.1 then Outcome.opened (r.2.call Call.dialogOpen)
  else Outcome.deleted (r.2.call Call.dialogDelete)

/-- AddNewTorrentDialog::doNotDeleteTorrentClicked -/
def doNotDeleteTorrentClicked (checked : Bool) (s : State) : State :=
  { s with m_torrentGuard := s.m_torrentGuard.map (fun (g : TorrentFileGuard) => { g with autoRemove := !checked }) }

/-- AddNewTorrentDialog::updateMetadata, the slot of the metadataLoaded notification. -/
def updateMetadata (h : Host) (info : TorrentInfo) (s : State) : State :=
  if info.hash ≠ s.m_hash then s
  else
    let s := s.call Call.disconnectMetadataLoaded
    if !info.isValid then
      let s := s.call (Call.critical Alert.invalidMetadata)
      setMetadataProgressIndicator s false "Invalid metadata".toList
    else
      let s := { s with m_torrentInfo := info }
      let s := { s with m_hasMetadata := true }
      let s := setMetadataProgressIndicator s true "Parsing metadata...".toList
      let s := setupTreeview h s
      setMetadataProgressIndicator s false "Metadata retrieval complete".toList

/-- AddNewTorrentDialog::accept, first part: the subscription is dropped when metadata
never arrived, and the fields of the form are captured into m_torrentParams. -/
def acceptCapture (s : State) : State :=
  let s := if !s.m_hasMetadata then s.call Call.disconnectMetadataLoaded else s
  let s := { s with m_torrentParams :=
    { s.m_torrentParams with skipChecking := s.skipCheckingCheckBox_checked } }
  let s := { s with m_torrentParams :=
    { s.m_torrentParams with category := s.categoryComboBox_currentText } }
  let s :=
    if s.defaultCategoryCheckbox_checked then
      { s with settings := { s.settings with defaultCategory := s.m_torrentParams.category } }
    else s
  let s :=
    match s.m_contentModel with
    | some model =>
      { s with m_torrentParams := { s.m_torrentParams with filePriorities := model.filePriorities } }
    | none => s
  let s := { s with m_torrentParams :=
    { s.m_torrentParams with addPaused := TriStateBool.ofBool (!s.startTorrentCheckBox_checked) } }
  { s with m_torrentParams :=
    { s.m_torrentParams with
      createSubfolder := TriStateBool.ofBool s.createSubfolderCheckBox_checked } }

/-- AddNewTorrentDialog::accept, second part: the save path mode. -/
def acceptSavePath (h : Host) (s : State) : State :=
  let savePath := s.selectedPath
  if s.comboTTM_currentIndex ≠ 1 then
    let s := { s with m_torrentParams :=
      { s.m_torrentParams with useAutoTMM := TriStateBool.False } }
    let s := { s with m_torrentParams := { s.m_torrentParams with savePath := savePath } }
    let s := saveSavePathHistory h s
    if s.defaultSavePathCheckBox_checked then
      let s := s.call (Call.setDefaultSavePath savePath)
      { s with session := { s.session with defaultSavePath := savePath } }
    else s
  else
    { s with m_torrentParams := { s.m_torrentParams with useAutoTMM := TriStateBool.True } }

/-- AddNewTorrentDialog::accept, last part: the enabled flag is stored, the torrent is
handed to the session, the guard is marked and the dialog is accepted. -/
def acceptHandOff (s : State) : State :=
  let s := { s with settings := { s.settings with enabled := !s.never_show_cb_checked } }
  let s :=
    if !s.m_hasMetadata then s.call (Call.addTorrentHash s.m_hash s.m_torrentParams)
    else s.call (Call.addTorrentInfo s.m_torrentInfo s.m_torrentParams)
  let s := s.call Call.markAsAddedToSession
  let s := { s with m_torrentGuard := s.m_torrentGuard.map (fun (g : TorrentFileGuard) => { g with wasAdded := true }) }
  s.call Call.dialogAccept

/-- AddNewTorrentDialog::accept -/
def accept (h : Host) (s : State) : State :=
  acceptHandOff (acceptSavePath h (acceptCapture s))

/-- AddNewTorrentDialog::reject -/
def reject (s : State) : State :=
  let s :=
    if !s.m_hasMetadata then
      let s := s.call Call.disconnectMetadataLoaded
      let s := setMetadataProgressIndicator s false []
      s.call (Call.cancelLoadMetadata s.m_hash)
    else s
  s.call Call.dialogReject

/-! ## Renaming -/

/-- The parent of a model index (m_contentModel->parent). -/
def parentOf (index : ModelIndex) : ModelIndex :=
  index.dropLast

/-- The loop of renameSelectedFile that walks up the tree: while the parent is valid its
name is put in front of pathItems.  An index has fewer ancestors than it has rows, which
bounds the walk. -/
def prependParents (items : List ContentItem) : Nat → ModelIndex → QStringList → QStringList
  | 0, _, pathItems => pathItems
  | fuel + 1, parent, pathItems =>
    match itemAt items parent with
    | some item => prependParents items fuel (parentOf parent) (item.name :: pathItems)
    | none => pathItems

/-- The list pathItems of the folder branch: the names from the top level down to the
selected row. -/
def folderPathItems (items : List ContentItem) (modelIndex : ModelIndex) (name : QString) :
    QStringList :=
  prependParents items modelIndex.length (parentOf modelIndex) [name]

/-- The comparison of the overwrite check of the folder branch: case sensitive on a Unix
build, case insensitive elsewhere. -/
def hostStartsWith (h : Host) (s pattern : QString) : Bool :=
  if h.unixBuild then startsWith s pattern else startsWithFolded h.foldCase s pattern

/-- The file branch of renameSelectedFile, entered with the trimmed and validated name. -/
def renameFileBranch (h : Host) (modelIndex : ModelIndex) (fileIndex : Nat) (newName : QString)
    (model : ContentModel) (s : State) : State :=
  let newName := if endsWith newName h.QB_EXT then chop newName h.QB_EXT.length else newName
  let oldFileName := s.m_torrentInfo.fileName fileIndex
  let oldFilePath := s.m_torrentInfo.filePath fileIndex
  let newFilePath := oldFilePath.take (oldFilePath.length - oldFileName.length) ++ newName
  if oldFileName = newName then s
  else if (List.range s.m_torrentInfo.filesCount).any
      (fun i => i != fileIndex && h.sameFileNames (s.m_torrentInfo.filePath i) newFilePath) then
    s.call (Call.warning Alert.renameFileNameInUse)
  else
    let s := { s with m_torrentInfo := s.m_torrentInfo.renameFile fileIndex newFilePath }
    let s := s.call (Call.renameFile fileIndex newFilePath)
    let renamed : ContentModel :=
      { model with rootItems := renameAt newName model.rootItems modelIndex }
    let s := { s with m_contentModel := some renamed }
    s.call (Call.setData modelIndex newName)

/-- One round of the loop that replaces the path in all files (folder branch). -/
def replacePathStep (h : Host) (oldPath newPath : QString) (s : State) (i : Nat) : State :=
  let currentName := s.m_torrentInfo.filePath i
  if startsWith currentName oldPath then
    let newName := newPath ++ currentName.drop oldPath.length
    let newName := h.expandPath newName
    let s := { s with m_torrentInfo := s.m_torrentInfo.renameFile i newName }
    s.call (Call.renameFile i newName)
  else s

/-- The folder branch of renameSelectedFile, entered with the trimmed and validated name. -/
def renameFolderBranch (h : Host) (modelIndex : ModelIndex) (itemName newName : QString)
    (model : ContentModel) (s : State) : State :=
  let pathItems := folderPathItems model.rootItems modelIndex itemName
  let oldPath := join pathItems "/".toList
  let pathItems := pathItems.dropLast ++ [newName]
  let newPath := join pathItems "/".toList
  if h.sameFileNames oldPath newPath then s
  else
    let newPath := if !(endsWith newPath "/".toList) then newPath ++ "/".toList else newPath
    if (List.range s.m_torrentInfo.filesCount).any
        (fun i => hostStartsWith h (s.m_torrentInfo.filePath i) newPath) then
      s.call (Call.warning Alert.renameFolderNameInUse)
    else
      let s := (List.range s.m_torrentInfo.filesCount).foldl (replacePathStep h oldPath newPath) s
      let renamed : ContentModel :=
        { model with rootItems := renameAt newName model.rootItems modelIndex }
      let s := { s with m_contentModel := some renamed }
      s.call (Call.setData modelIndex newName)

/-- AddNewTorrentDialog::renameSelectedFile.  The two extra arguments are what the user
did in the input dialog: whether it was confirmed, and the text entered.  Without a
content model the tree view has no row to select. -/
def renameSelectedFile (h : Host) (ok : Bool) (text : QString) (s : State) : State :=
  match s.m_contentModel with
  | none => s
  | some model =>
    match s.contentTreeView_selectedRows with
    | [modelIndex] =>
      match itemAt model.rootItems modelIndex with
      | none => s
      | some item =>
        let newName := trimmed h.isSpace text
        if !ok then s
        else if newName.isEmpty || !h.isValidFileSystemName newName then
          s.call (Call.warning Alert.renameNameInvalid)
        else
          match item with
          | ContentItem.file _ fileIndex =>
            renameFileBranch h modelIndex fileIndex newName model s
          | ContentItem.folder itemName _ =>
            renameFolderBranch h modelIndex itemName newName model s
    | _ => s

/-! ## A host for worked examples -/

/-- Utils::Fs::isValidFileSystemName as it is upstream: the name is not empty and has none
of the characters the file systems forbid (code 92 is the backslash, code 34 the double
quote). -/
def validName (name : QString) : Bool :=
  !name.isEmpty && !name.any (fun c => c ∈ [Char.ofNat 92, '/', ':', '?', Char.ofNat 34, '*', '<', '>', '|'])

/-- The rows of QDir::cleanPath for a relative path: empty parts and single dots go, a
double dot takes the part before it along. -/
def cleanParts : QStringList → QStringList → QStringList
  | [], done => done.reverse
  | part :: rest, done =>
    if part = [] ∨ part = ".".toList then cleanParts rest done
    else if part = "..".toList then
      match done with
      | [] => cleanParts rest ["..".toList]
      | d :: ds => if d = "..".toList then cleanParts rest (part :: done) else cleanParts rest ds
    else cleanParts rest (part :: done)

/-- QChar::isSpace as Qt defines it: the space, the controls U+0009 to U+000D, U+0085,
U+00A0, and the characters of the Unicode categories Zs, Zl and Zp. -/
def spaceChar (c : Char) : Bool :=
  c.toNat == 0x20 || (0x09 ≤ c.toNat && c.toNat ≤ 0x0D) || c.toNat == 0x85 || c.toNat == 0xA0
    || c.toNat == 0x1680 || (0x2000 ≤ c.toNat && c.toNat ≤ 0x200A) || c.toNat == 0x2028
    || c.toNat == 0x2029 || c.toNat == 0x202F || c.toNat == 0x205F || c.toNat == 0x3000

/-- Utils::Fs::expandPath as it is upstream: trim, then QDir::cleanPath, which keeps the
leading separator of an absolute path. -/
def cleanPath (path : QString) : QString :=
  let p := trimmed spaceChar path
  if p.isEmpty then p
  else
    let body := join (cleanParts (p.splitOn '/') []) "/".toList
    if startsWith p "/".toList then '/' :: body else body

/-- A Unix build where every file exists, is readable and holds what loadFromFile gives
back, and directories are compared by their cleaned paths. -/
def unixHost (loadFromFile : QString → TorrentInfo) (parseMagnet : QString → MagnetUri) : Host :=
  { minPathHistoryLength := 0, maxPathHistoryLength := 99, unixBuild := true,
    foldCase := Char.toLower, isSpace := spaceChar, QB_EXT := ".!qB".toList,
    isUrl := fun src => startsWith src "http://".toList || startsWith src "https://".toList,
    parseMagnet := parseMagnet, toLocalFile := fun p => p.drop 7,
    fileExists := fun _ => true, isReadable := fun _ => true, loadFromFile := loadFromFile,
    isValidFileSystemName := validName,
    sameFileNames := fun a b => decide (a = b),
    expandPath := cleanPath, toNativePath := fun p => p,
    dirKey := cleanPath, absolutePath := cleanPath,
    parseHtmlLinks := fun c => c, naturalSort := fun l => l, autoDeleteNever := false }

/-- The torrent of the worked examples: the files a/b/c.txt, a/x, a/b/d.txt and a/e/f.txt,
so that folder a holds the folders b and e and the file x. -/
def exampleInfo : TorrentInfo :=
  { isValid := true, hash := "h1".toList, name := "t".toList, isPrivate := false,
    trackers := ["udp://tr".toList], urlSeeds := ["http://seed".toList], comment := [],
    creationDate := none,
    files := [⟨"a/b/c.txt".toList, 10⟩, ⟨"a/x".toList, 5⟩, ⟨"a/b/d.txt".toList, 7⟩,
      ⟨"a/e/f.txt".toList, 3⟩] }

/-- The magnet link of the worked examples, of the same info hash. -/
def exampleMagnet : MagnetUri :=
  { isValid := true, hash := "h1".toList, name := [], trackers := ["udp://tr2".toList],
    urlSeeds := ["http://seed2".toList] }

/-- The host of the worked examples: a source that starts with the magnet scheme is the
example magnet link, every file holds the example torrent. -/
def exampleHost : Host :=
  unixHost (fun _ => exampleInfo)
    (fun src => if startsWith src "magnet:".toList then exampleMagnet else ⟨false, [], [], [], []⟩)

/-- A session that already manages the torrent of hash h1, private or not. -/
def sessionWith (isPrivate : Bool) : Session :=
  { isKnownTorrent := fun hash => decide (hash = "h1".toList),
    findTorrent := fun hash =>
      if hash = "h1".toList then some ⟨"h1".toList, "t".toList, isPrivate⟩ else none,
    defaultSavePath := "/d".toList, categorySavePath := fun _ => "/cat".toList,
    categories := [], isAddTorrentPaused := false, isAutoTMMDisabledByDefault := true,
    isCreateTorrentSubfolder := true }

/-- A session that knows no torrent. -/
def sessionEmpty : Session :=
  { sessionWith false with isKnownTorrent := fun _ => false, findTorrent := fun _ => none }

/-- The settings of the worked examples: three remembered save paths, eight allowed. -/
def exampleSettings : Settings :=
  { savePathHistory := ["/h1".toList, "/d".toList, "/h2".toList], savePathHistoryLength := 8,
    defaultCategory := [], enabled := true, expanded := false }

/-- The dialog of the worked examples, created while the session manages the torrent of
hash h1. -/
def exampleDialog (isPrivate : Bool) : State :=
  construct exampleHost (sessionWith isPrivate) exampleSettings AddTorrentParams.default

/-- The example dialog with the given path chosen in the save path edit. -/
def exampleChosen (path : QString) : State :=
  { exampleDialog false with savePath_text := path }

/-! ## Predicates on the call log and on states -/

/-- Calls that admit a torrent: the dialog is opened, or addTorrent is called. -/
def Call.isAdmission : Call → Bool
  | Call.addTorrentHash _ _ => true
  | Call.addTorrentInfo _ _ => true
  | Call.dialogOpen => true
  | _ => false

/-- The fields no operation on the save path edit touches. -/
def State.core (s : State) :
    Session × Settings × List Call × Option ContentModel × AddTorrentParams × QString × Bool
      × TorrentInfo × QString :=
  (s.session, s.settings, s.calls, s.m_contentModel, s.m_torrentParams,
    s.categoryComboBox_currentText, s.m_hasMetadata, s.m_torrentInfo, s.m_hash)

/-- No two entries are equal as directories. -/
def DistinctDirs (h : Host) (l : QStringList) : Prop :=
  l.Pairwise (fun a b => h.sameDir a b = false)

/-- The history saveSavePathHistory works on: the stored one cut to the allowed length. -/
def cutHistory (st : Settings) : QStringList :=
  if (st.savePathHistory.length : Int) > savePathHistoryLength st then
    mid0 st.savePathHistory (savePathHistoryLength st)
  else st.savePathHistory

/-- The list of the save path edit in manual mode, in the words of the specification: the
default save path, then the stored history entries that are not the default directory,
and in front of them the save path the caller supplied when it is not empty and not
among them. -/
def manualSavePathList (h : Host) (s : State) : QStringList :=
  let listed := s.session.defaultSavePath ::
    s.settings.savePathHistory.filter (fun p => !(h.sameDir p s.session.defaultSavePath))
  if s.m_torrentParams.savePath.isEmpty then listed
  else if listed.any (fun p => h.sameDir p s.m_torrentParams.savePath) then listed
  else s.m_torrentParams.savePath :: listed

/-- The dialog of the worked examples after the example torrent file was loaded, with the
given rows selected in the content tree. -/
def exampleLoaded (selectedRows : List ModelIndex) : State :=
  { (loadTorrent exampleHost "x.torrent".toList
      (construct exampleHost sessionEmpty exampleSettings AddTorrentParams.default)).2 with
    contentTreeView_selectedRows := selectedRows }

/-- Calls that change the metadata snapshot or the tree model during a rename. -/
def Call.isRename : Call → Bool
  | Call.renameFile _ _ => true
  | Call.setData _ _ => true
  | _ => false

/-- The size of the files to download in the words of the specification: the sum of
fileSize(i) over the files whose priority is not 0 (not downloaded). -/
def wantedSizeSpec (priorities : List Int) (info : TorrentInfo) : Nat :=
  (((List.range info.filesCount).filter (fun i => priorities.getD i 0 != 0)).map
    info.fileSize).sum

/-- The example dialog after the example torrent was loaded, with the file priorities
normal, not downloaded, high and maximum in the content model. -/
def examplePrioritised : State :=
  { exampleLoaded [] with
    m_contentModel := some ⟨(setupModelData exampleInfo).rootItems, [1, 0, 6, 7]⟩ }

/-- The fields accept hands to the session or decides by, apart from the settings. -/
def State.handOff (s : State) :
    List Call × AddTorrentParams × Bool × QString × TorrentInfo × Option TorrentFileGuard
      × Int × Bool × QString :=
  (s.calls, s.m_torrentParams, s.m_hasMetadata, s.m_hash, s.m_torrentInfo, s.m_torrentGuard,
    s.comboTTM_currentIndex, s.defaultSavePathCheckBox_checked, s.savePath_text)

/-- Calls of Session::addTorrent, by hash or by metadata. -/
def Call.isAddTorrent : Call → Bool
  | Call.addTorrentHash _ _ => true
  | Call.addTorrentInfo _ _ => true
  | _ => false

/-- The two objects the connections of this file join. -/
inductive QObjectId where
  | session
  | dialog
  deriving DecidableEq, Repr

/-- A connection of a signal of the sender to the slot updateMetadata of the receiver. -/
structure Connection where
  sender : QObjectId
  receiver : QObjectId
  deriving DecidableEq, Repr

/-- The connections to the slot updateMetadata in force after the logged calls.
Call.connectMetadataLoaded stands for connect(Session::instance(),
&Session::metadataLoaded, this, &updateMetadata) in loadMagnet: the sender is the session.
Call.disconnectMetadataLoaded stands for disconnect(this, SLOT(updateMetadata(...))) in
accept, reject and updateMetadata, the member function QObject::disconnect(receiver,
method), which disconnects the signals of this object, the dialog, from the method of the
receiver: it removes the connections whose sender is the dialog. -/
def connectionsAfter (calls : List Call) : List Connection :=
  calls.foldl
    (fun conns c =>
      match c with
      | Call.connectMetadataLoaded => conns ++ [⟨QObjectId.session, QObjectId.dialog⟩]
      | Call.disconnectMetadataLoaded =>
        conns.filter (fun k =>
          !(decide (k.sender = QObjectId.dialog) && decide (k.receiver = QObjectId.dialog)))
      | _ => conns)
    []

/-- The session emits metadataLoaded(info): the slot updateMetadata of the dialog runs once
for every connection from the session to the dialog that is in force. -/
def metadataLoaded (h : Host) (info : TorrentInfo) (s : State) : State :=
  ((connectionsAfter s.calls).filter (fun k =>
      decide (k.sender = QObjectId.session) && decide (k.receiver = QObjectId.dialog))).foldl
    (fun st _ => updateMetadata h info st) s

/-- The example dialog after the example magnet link was loaded, waiting for metadata. -/
def exampleWaiting : State :=
  (loadMagnet exampleHost exampleMagnet
    (construct exampleHost sessionEmpty exampleSettings AddTorrentParams.default)).2

/-- The waiting example dialog after the first metadataLoaded notification, with the row of
the file a/x selected and renamed to z by the user. -/
def exampleRenamed : State :=
  renameSelectedFile exampleHost true "z".toList
    { metadataLoaded exampleHost exampleInfo exampleWaiting with
      contentTreeView_selectedRows := [[0, 1]] }

/-- The name the content model shows at a row. -/
def State.rowName (s : State) (index : ModelIndex) : Option QString :=
  match s.m_contentModel with
  | some model => (itemAt model.rootItems index).map ContentItem.name
  | none => none

/-- The paths of all files of the metadata snapshot, in file order. -/
def State.filePaths (s : State) : List QString :=
  s.m_torrentInfo.files.map FileEntry.path

/-- A torrent whose folder a holds the folder b, the folder bc and the file b.txt: the
names of the two siblings of b begin with the characters of b. -/
def siblingInfo : TorrentInfo :=
  { isValid := true, hash := "h2".toList, name := "t2".toList, isPrivate := false,
    trackers := [], urlSeeds := [], comment := [], creationDate := none,
    files := [⟨"a/b/c.txt".toList, 10⟩, ⟨"a/bc/d.txt".toList, 5⟩, ⟨"a/b.txt".toList, 7⟩] }

/-- A host whose every file holds the torrent with the like-named siblings. -/
def siblingHost : Host :=
  unixHost (fun _ => siblingInfo) (fun _ => ⟨false, [], [], [], []⟩)

/-- The dialog after the torrent with the like-named siblings was loaded, with the given
rows selected in the content tree. -/
def siblingLoaded (selectedRows : List ModelIndex) : State :=
  { (loadTorrent siblingHost "s.torrent".toList
      (construct siblingHost sessionEmpty exampleSettings AddTorrentParams.default)).2 with
    contentTreeView_selectedRows := selectedRows }

/-- The user picks the entry at the index in the save path edit: the edit shows the entry
and, unless its signals are blocked, emits selectedPathChanged, which the constructor
connects to onSavePathChanged. -/
def selectSavePathEntry (h : Host) (index : Int) (s : State) : State :=
  let s := savePath_setCurrentIndex s index
  if s.savePath_signalsBlocked then s else onSavePathChanged h s.selectedPath s

/-- The example dialog created by a caller that supplies the save path /cs, after the
example torrent was loaded. -/
def exampleCallerPath : State :=
  (loadTorrent exampleHost "x.torrent".toList
    (construct exampleHost sessionEmpty exampleSettings
      { AddTorrentParams.default with savePath := "/cs".toList })).2

/-! ## Frame lemmas -/

theorem mem_of_mem_snoc {p : Call → Bool} {l : List Call} {a c : Call} (ha : p a = false)
    (hc : c ∈ l ++ [a]) (hp : p c = true) : c ∈ l := by
  rcases List.mem_append.mp hc with h | h
  · exact h
  · rw [List.mem_singleton] at h
    subst h
    rw [ha] at hp
    cases hp

theorem core_savePath_clear (s : State) : (savePath_clear s).core = s.core := rfl

theorem core_savePath_addItem (s : State) (t : QString) : (savePath_addItem s t).core = s.core := by
  unfold savePath_addItem; split <;> rfl

theorem core_savePath_insertItem0 (s : State) (t : QString) :
    (savePath_insertItem0 s t).core = s.core := by
  unfold savePath_insertItem0; split <;> rfl

theorem core_savePath_setCurrentIndex (s : State) (i : Int) :
    (savePath_setCurrentIndex s i).core = s.core := by
  unfold savePath_setCurrentIndex; split <;> rfl

theorem core_updateDiskSpaceLabel (s : State) : (updateDiskSpaceLabel s).core = s.core := rfl

theorem core_onSavePathChanged (h : Host) (p : QString) (s : State) :
    (onSavePathChanged h p s).core = s.core := rfl

theorem core_setSavePath (h : Host) (p : QString) (s : State) :
    (setSavePath h p s).core = s.core := by
  unfold setSavePath
  dsimp only
  split
  · rw [core_onSavePathChanged, core_savePath_setCurrentIndex, core_savePath_insertItem0]
  · rw [core_onSavePathChanged, core_savePath_setCurrentIndex]

theorem core_foldl_addItem (h : Host) (d : QString) (l : QStringList) (s : State) :
    (l.foldl (fun s savePath =>
        if !(h.sameDir savePath d) then savePath_addItem s savePath else s) s).core = s.core := by
  induction l generalizing s with
  | nil => rfl
  | cons a l ih =>
    rw [List.foldl_cons, ih]
    split
    · exact core_savePath_addItem s a
    · rfl

theorem core_populateSavePathComboBox (h : Host) (s : State) :
    (populateSavePathComboBox h s).core = s.core := by
  unfold populateSavePathComboBox
  have hsettings : (savePath_addItem (savePath_clear s) s.session.defaultSavePath).settings
      = s.settings :=
    congrArg (fun c => c.2.1) (core_savePath_addItem (savePath_clear s) s.session.defaultSavePath)
  simp only [hsettings]
  split
  · rw [core_setSavePath, core_foldl_addItem, core_savePath_addItem, core_savePath_clear]
  · rw [core_foldl_addItem, core_savePath_addItem, core_savePath_clear]

theorem core_showAdvancedSettings (s : State) (b : Bool) :
    (showAdvancedSettings s b).core = s.core := by
  unfold showAdvancedSettings; split <;> rfl

theorem core_TMMChanged_auto (h : Host) (s : State) : (TMMChanged h 1 s).core = s.core := by
  unfold TMMChanged
  simp only [ne_eq, not_true_eq_false, if_false]
  rw [core_showAdvancedSettings]
  exact core_savePath_addItem _ _

theorem construct_fresh (h : Host) (session : Session) (settings : Settings)
    (p : AddTorrentParams) :
    (construct h session settings p).session = session
    ∧ (construct h session settings p).calls = []
    ∧ (construct h session settings p).m_contentModel = none := by
  have hp : ∀ s : State, (populateSavePathComboBox h s).session = s.session
      ∧ (populateSavePathComboBox h s).calls = s.calls
      ∧ (populateSavePathComboBox h s).m_contentModel = s.m_contentModel := fun s =>
    ⟨congrArg (fun c => c.1) (core_populateSavePathComboBox h s),
     congrArg (fun c => c.2.2.1) (core_populateSavePathComboBox h s),
     congrArg (fun c => c.2.2.2.1) (core_populateSavePathComboBox h s)⟩
  unfold construct
  dsimp only
  refine ⟨?_, ?_, ?_⟩
  · rw [(hp _).1]
  · rw [(hp _).2.1]
  · rw [(hp _).2.2]

/-! ## Loading a torrent the session already knows -/

theorem loadTorrent_known (h : Host) (s : State) (torrentPath : QString)
    (hk : s.session.isKnownTorrent (h.loadFromFile (torrentFilePath h torrentPath)).hash = true) :
    (loadTorrent h torrentPath s).1 = false
    ∧ (loadTorrent h torrentPath s).2.m_contentModel = s.m_contentModel
    ∧ ∀ c ∈ (loadTorrent h torrentPath s).2.calls, c.isAdmission = true → c ∈ s.calls := by
  unfold loadTorrent
  simp only [State.call]
  split
  · exact ⟨rfl, rfl, fun c hc hp => mem_of_mem_snoc rfl hc hp⟩
  split
  · exact ⟨rfl, rfl, fun c hc hp => mem_of_mem_snoc rfl hc hp⟩
  split
  · exact ⟨rfl, rfl, fun c hc hp => mem_of_mem_snoc rfl hc hp⟩
  split
  · split
    · exact ⟨rfl, rfl, fun c hc hp => mem_of_mem_snoc rfl hc hp⟩
    · exact ⟨rfl, rfl, fun c hc hp =>
        mem_of_mem_snoc rfl (mem_of_mem_snoc rfl (mem_of_mem_snoc rfl hc hp) hp) hp⟩
  · exact ⟨rfl, rfl, fun c hc hp => mem_of_mem_snoc rfl hc hp⟩

theorem loadMagnet_known (h : Host) (s : State) (magnetUri : MagnetUri)
    (hk : s.session.isKnownTorrent magnetUri.hash = true) :
    (loadMagnet h magnetUri s).1 = false
    ∧ (loadMagnet h magnetUri s).2.m_contentModel = s.m_contentModel
    ∧ ∀ c ∈ (loadMagnet h magnetUri s).2.calls, c.isAdmission = true → c ∈ s.calls := by
  unfold loadMagnet
  simp only [State.call]
  split
  · exact ⟨rfl, rfl, fun c hc hp => mem_of_mem_snoc rfl hc hp⟩
  split
  · split
    · exact ⟨rfl, rfl, fun c hc hp => mem_of_mem_snoc rfl hc hp⟩
    · exact ⟨rfl, rfl, fun c hc hp =>
        mem_of_mem_snoc rfl (mem_of_mem_snoc rfl (mem_of_mem_snoc rfl hc hp) hp) hp⟩
  · exact ⟨rfl, rfl, fun c hc hp => mem_of_mem_snoc rfl hc hp⟩

theorem outcome_of_refused (r : Bool × State) (s : State) (hr : r.1 = false)
    (hm : r.2.m_contentModel = s.m_contentModel)
    (hc : ∀ c ∈ r.2.calls, c.isAdmission = true → c ∈ s.calls) :
    let o := if r.1 then Outcome.opened (r.2.call Call.dialogOpen)
             else Outcome.deleted (r.2.call Call.dialogDelete)
    o.isOpened = false ∧ o.state.m_contentModel = s.m_contentModel
      ∧ ∀ c ∈ o.state.calls, c.isAdmission = true → c ∈ s.calls := by
  intro o
  have ho : o = Outcome.deleted (r.2.call Call.dialogDelete) := by
    simp only [o, hr]; rfl
  rw [ho]
  exact ⟨rfl, hm, fun c hcm hp => hc c (mem_of_mem_snoc rfl hcm hp) hp⟩

/-- C1: when the session reports the info hash of a torrent file or of a magnet link as
known, loadTorrent and loadMagnet return false, the content model (the file tree) is left
as it was, and no call that admits the torrent (opening the dialog, addTorrent) is added to
the log, neither by the download handlers nor by show, which ends with a dialog that was
never opened and has no tree. -/
theorem known_torrent_is_never_admitted (h : Host) (s : State) (torrentPath : QString)
    (magnetUri : MagnetUri) (inParams : AddTorrentParams)
    (hfile : s.session.isKnownTorrent (h.loadFromFile (torrentFilePath h torrentPath)).hash = true)
    (hmagnet : s.session.isKnownTorrent magnetUri.hash = true) :
    ((loadTorrent h torrentPath s).1 = false
      ∧ (loadTorrent h torrentPath s).2.m_contentModel = s.m_contentModel
      ∧ ∀ c ∈ (loadTorrent h torrentPath s).2.calls, c.isAdmission = true → c ∈ s.calls)
    ∧ ((loadMagnet h magnetUri s).1 = false
      ∧ (loadMagnet h magnetUri s).2.m_contentModel = s.m_contentModel
      ∧ ∀ c ∈ (loadMagnet h magnetUri s).2.calls, c.isAdmission = true → c ∈ s.calls)
    ∧ ((handleDownloadFinished h torrentPath s).isOpened = false
      ∧ ∀ c ∈ (handleDownloadFinished h torrentPath s).state.calls,
          c.isAdmission = true → c ∈ s.calls)
    ∧ (∀ magnetText, h.parseMagnet magnetText = magnetUri →
        (handleRedirectedToMagnet h magnetText s).isOpened = false
        ∧ ∀ c ∈ (handleRedirectedToMagnet h magnetText s).state.calls,
            c.isAdmission = true → c ∈ s.calls)
    ∧ (((h.parseMagnet torrentPath).isValid = true → h.parseMagnet torrentPath = magnetUri) →
        («show» h s.session s.settings torrentPath inParams).isOpened = false
        ∧ («show» h s.session s.settings torrentPath inParams).state.m_contentModel = none
        ∧ ∀ c ∈ («show» h s.session s.settings torrentPath inParams).state.calls,
            c.isAdmission = false) := by
  have hT := loadTorrent_known h s torrentPath hfile
  have hM := loadMagnet_known h s magnetUri hmagnet
  refine ⟨hT, hM, ?_, ?_, ?_⟩
  · have := outcome_of_refused (loadTorrent h torrentPath s) s hT.1 hT.2.1 hT.2.2
    exact ⟨this.1, this.2.2⟩
  · intro magnetText hparse
    have := outcome_of_refused (loadMagnet h magnetUri s) s hM.1 hM.2.1 hM.2.2
    unfold handleRedirectedToMagnet
    rw [hparse]
    exact ⟨this.1, this.2.2⟩
  · intro hsrc
    obtain ⟨hs, hc, hm⟩ := construct_fresh h s.session s.settings inParams
    have key : ∀ o : Outcome, o.state.m_contentModel = (construct h s.session s.settings inParams).m_contentModel →
        (∀ c ∈ o.state.calls, c.isAdmission = true → c ∈ (construct h s.session s.settings inParams).calls) →
        o.state.m_contentModel = none ∧ ∀ c ∈ o.state.calls, c.isAdmission = false := by
      intro o h1 h2
      refine ⟨h1.trans hm, fun c hcm => ?_⟩
      cases hadm : c.isAdmission with
      | false => rfl
      | true =>
        have := h2 c hcm hadm
        rw [hc] at this
        cases this
    unfold «show»
    dsimp only
    by_cases hurl : h.isUrl torrentPath = true
    · rw [if_pos hurl]
      refine ⟨rfl, hm, fun c hcm => ?_⟩
      have : c ∈ [] ++ [Call.downloadUrl torrentPath] := by
        simpa [Outcome.state, State.call, hc] using hcm
      cases hadm : c.isAdmission with
      | false => rfl
      | true => cases mem_of_mem_snoc (show (Call.downloadUrl torrentPath).isAdmission = false from rfl) this hadm
    · rw [if_neg hurl]
      by_cases hv : (h.parseMagnet torrentPath).isValid = true
      · rw [if_pos hv, hsrc hv]
        have hM2 := loadMagnet_known h (construct h s.session s.settings inParams) magnetUri
          (by rw [hs]; exact hmagnet)
        have := outcome_of_refused _ _ hM2.1 hM2.2.1 hM2.2.2
        exact ⟨this.1, key _ this.2.1 this.2.2⟩
      · rw [if_neg hv]
        have hT2 := loadTorrent_known h (construct h s.session s.settings inParams) torrentPath
          (by rw [hs]; exact hfile)
        have := outcome_of_refused _ _ hT2.1 hT2.2.1 hT2.2.2
        exact ⟨this.1, key _ this.2.1 this.2.2⟩

theorem known_torrent_is_never_admitted_witness :
    (exampleDialog false).session.isKnownTorrent exampleMagnet.hash = true
    ∧ (loadTorrent exampleHost "x.torrent".toList (exampleDialog false)).1 = false
    ∧ (loadMagnet exampleHost exampleMagnet (exampleDialog false)).1 = false
    ∧ («show» exampleHost (exampleDialog false).session (exampleDialog false).settings
        "x.torrent".toList AddTorrentParams.default).isOpened = false :=
  have t := known_torrent_is_never_admitted exampleHost (exampleDialog false) "x.torrent".toList
    exampleMagnet AddTorrentParams.default (by decide) (by decide)
  ⟨by decide, t.1.1, t.2.1.1, (t.2.2.2.2 (by decide)).1⟩

/-- C2: when the session knows the info hash, findTorrent gives the existing torrent and
neither that torrent nor the torrent file is private, loadTorrent and loadMagnet call
addTrackers and addUrlSeeds on the existing torrent with the trackers and URL seeds of
the source, report the merge, and return false. -/
theorem known_public_torrent_merges (h : Host) (s : State) (torrentPath : QString)
    (magnetUri : MagnetUri) (torrent : TorrentHandle)
    (hexists : h.fileExists (torrentFilePath h torrentPath) = true)
    (hreadable : h.isReadable (torrentFilePath h torrentPath) = true)
    (hvalid : (h.loadFromFile (torrentFilePath h torrentPath)).isValid = true)
    (hsame : (h.loadFromFile (torrentFilePath h torrentPath)).hash = magnetUri.hash)
    (hmagnet : magnetUri.isValid = true)
    (hknown : s.session.isKnownTorrent magnetUri.hash = true)
    (hfind : s.session.findTorrent magnetUri.hash = some torrent)
    (hpublic : torrent.isPrivate = false)
    (hfilePublic : (h.loadFromFile (torrentFilePath h torrentPath)).isPrivate = false) :
    (loadTorrent h torrentPath s).1 = false
    ∧ (loadTorrent h torrentPath s).2.calls = s.calls ++
        [Call.addTrackers torrent.hash (h.loadFromFile (torrentFilePath h torrentPath)).trackers,
         Call.addUrlSeeds torrent.hash (h.loadFromFile (torrentFilePath h torrentPath)).urlSeeds,
         Call.information (Alert.alreadyPresentTorrentMerged torrent.name)]
    ∧ (loadMagnet h magnetUri s).1 = false
    ∧ (loadMagnet h magnetUri s).2.calls = s.calls ++
        [Call.addTrackers torrent.hash magnetUri.trackers,
         Call.addUrlSeeds torrent.hash magnetUri.urlSeeds,
         Call.information (Alert.alreadyPresentMagnetMerged torrent.name)] := by
  have hT : (loadTorrent h torrentPath s).1 = false
      ∧ (loadTorrent h torrentPath s).2.calls = s.calls ++
        [Call.addTrackers torrent.hash (h.loadFromFile (torrentFilePath h torrentPath)).trackers,
         Call.addUrlSeeds torrent.hash (h.loadFromFile (torrentFilePath h torrentPath)).urlSeeds,
         Call.information (Alert.alreadyPresentTorrentMerged torrent.name)] := by
    unfold loadTorrent
    simp [hexists, hreadable, hvalid, hsame, hknown, hfind, hpublic, hfilePublic, State.call]
  have hM : (loadMagnet h magnetUri s).1 = false
      ∧ (loadMagnet h magnetUri s).2.calls = s.calls ++
        [Call.addTrackers torrent.hash magnetUri.trackers,
         Call.addUrlSeeds torrent.hash magnetUri.urlSeeds,
         Call.information (Alert.alreadyPresentMagnetMerged torrent.name)] := by
    unfold loadMagnet
    simp [hmagnet, hknown, hfind, hpublic, State.call]
  exact ⟨hT.1, hT.2, hM.1, hM.2⟩

theorem known_public_torrent_merges_witness :
    (loadMagnet exampleHost exampleMagnet (exampleDialog false)).2.calls =
      [Call.addTrackers "h1".toList ["udp://tr2".toList],
       Call.addUrlSeeds "h1".toList ["http://seed2".toList],
       Call.information (Alert.alreadyPresentMagnetMerged "t".toList)] :=
  (known_public_torrent_merges exampleHost (exampleDialog false) "x.torrent".toList exampleMagnet
    ⟨"h1".toList, "t".toList, false⟩ (by decide) (by decide) (by decide) (by decide) (by decide)
    (by decide) (by decide) (by decide) (by decide)).2.2.2

/-- C3: when the session knows the info hash and the torrent file is private or the
existing torrent is private, loadTorrent returns false and the only call it makes is one
critical alert (the private torrent conflict when the existing torrent was found), so
neither addTrackers nor addUrlSeeds is called; the same holds for loadMagnet when the
existing torrent is private. -/
theorem known_private_torrent_is_not_merged (h : Host) (s : State) (torrentPath : QString)
    (magnetUri : MagnetUri) (found : Option TorrentHandle)
    (hexists : h.fileExists (torrentFilePath h torrentPath) = true)
    (hreadable : h.isReadable (torrentFilePath h torrentPath) = true)
    (hvalid : (h.loadFromFile (torrentFilePath h torrentPath)).isValid = true)
    (hsame : (h.loadFromFile (torrentFilePath h torrentPath)).hash = magnetUri.hash)
    (hmagnet : magnetUri.isValid = true)
    (hknown : s.session.isKnownTorrent magnetUri.hash = true)
    (hfind : s.session.findTorrent magnetUri.hash = found) :
    (((h.loadFromFile (torrentFilePath h torrentPath)).isPrivate = true
        ∨ ∃ t, found = some t ∧ t.isPrivate = true) →
      (loadTorrent h torrentPath s).1 = false
      ∧ (loadTorrent h torrentPath s).2.calls = s.calls ++
          [Call.critical (match found with
            | some t => Alert.alreadyPresentPrivate t.name
            | none => Alert.cannotAddTorrent)])
    ∧ ((∃ t, found = some t ∧ t.isPrivate = true) →
      (loadMagnet h magnetUri s).1 = false
      ∧ (loadMagnet h magnetUri s).2.calls = s.calls ++
          [Call.critical (match found with
            | some t => Alert.alreadyPresentPrivate t.name
            | none => Alert.cannotAddTorrent)]) := by
  constructor
  · intro hpriv
    cases found with
    | none =>
      unfold loadTorrent
      simp [hexists, hreadable, hvalid, hsame, hknown, hfind, State.call]
    | some torrent =>
      have hor : (torrent.isPrivate
          || (h.loadFromFile (torrentFilePath h torrentPath)).isPrivate) = true := by
        rcases hpriv with hp | ⟨t, ht, hp⟩
        · simp [hp]
        · cases ht; simp [hp]
      unfold loadTorrent
      simp [hexists, hreadable, hvalid, hsame, hknown, hfind, hor, State.call]
  · rintro ⟨t, rfl, hp⟩
    unfold loadMagnet
    simp [hmagnet, hknown, hfind, hp, State.call]

theorem known_private_torrent_is_not_merged_witness :
    (loadTorrent exampleHost "x.torrent".toList (exampleDialog true)).2.calls =
        [Call.critical (Alert.alreadyPresentPrivate "t".toList)]
    ∧ (loadMagnet exampleHost exampleMagnet (exampleDialog true)).2.calls =
        [Call.critical (Alert.alreadyPresentPrivate "t".toList)] :=
  have t := known_private_torrent_is_not_merged exampleHost (exampleDialog true)
    "x.torrent".toList exampleMagnet (some ⟨"h1".toList, "t".toList, true⟩)
    (by decide) (by decide) (by decide) (by decide) (by decide) (by decide) (by decide)
  ⟨(t.1 (Or.inr ⟨_, rfl, rfl⟩)).2, (t.2 ⟨_, rfl, rfl⟩).2⟩

/-! ## The save path history -/

theorem mid0_sublist (l : QStringList) (n : Int) : (mid0 l n).Sublist l := by
  unfold mid0
  split
  · exact List.Sublist.refl l
  · exact List.take_sublist _ l

theorem length_mid0_le (l : QStringList) (n : Int) (hn : 0 ≤ n) : ((mid0 l n).length : Int) ≤ n := by
  unfold mid0
  rw [if_neg (not_lt.mpr hn), List.length_take]
  omega

theorem cutHistory_sublist (st : Settings) : (cutHistory st).Sublist st.savePathHistory := by
  unfold cutHistory
  split
  · exact mid0_sublist _ _
  · exact List.Sublist.refl _

theorem saveSavePathHistory_absent (h : Host) (s : State)
    (hab : (cutHistory s.settings).any (fun dir => h.sameDir dir s.selectedPath) = false) :
    (saveSavePathHistory h s).settings.savePathHistory =
      (if ((h.absolutePath s.selectedPath :: cutHistory s.settings).length : Int)
            > savePathHistoryLength s.settings then
        (h.absolutePath s.selectedPath :: cutHistory s.settings).dropLast
      else h.absolutePath s.selectedPath :: cutHistory s.settings)
    ∧ (saveSavePathHistory h s).settings.savePathHistoryLength
        = s.settings.savePathHistoryLength := by
  unfold cutHistory at hab
  unfold saveSavePathHistory cutHistory
  simp only [hab]
  exact ⟨rfl, rfl⟩

theorem saveSavePathHistory_present (h : Host) (s : State)
    (hab : (cutHistory s.settings).any (fun dir => h.sameDir dir s.selectedPath) = true) :
    saveSavePathHistory h s = s := by
  unfold cutHistory at hab
  unfold saveSavePathHistory
  simp only [hab]
  rfl

/-- C7: when the stored history has at most savePathHistoryLength() entries, it still has
at most that many after saveSavePathHistory, whatever path is selected, and after
setSavePathHistoryLength(value) for every value of the allowed range (whose lower end
minPathHistoryLength is not negative), measured against the new length; and the proxy of
the cached setting never yields a negative length. -/
theorem history_length_is_bounded (h : Host) (s : State) (value : Int)
    (hlen : (s.settings.savePathHistory.length : Int) ≤ savePathHistoryLength s.settings)
    (hmin : 0 ≤ h.minPathHistoryLength)
    (hlo : h.minPathHistoryLength ≤ value) :
    ((saveSavePathHistory h s).settings.savePathHistory.length : Int)
        ≤ savePathHistoryLength (saveSavePathHistory h s).settings
    ∧ ((setSavePathHistoryLength value s.settings).savePathHistory.length : Int)
        ≤ savePathHistoryLength (setSavePathHistoryLength value s.settings)
    ∧ ∀ stored : Int, 0 ≤ savePathHistoryLengthProxy h stored := by
  refine ⟨?_, ?_, ?_⟩
  · cases hab : (cutHistory s.settings).any (fun dir => h.sameDir dir s.selectedPath) with
    | true => rw [saveSavePathHistory_present h s hab]; exact hlen
    | false =>
      obtain ⟨e1, e2⟩ := saveSavePathHistory_absent h s hab
      unfold savePathHistoryLength at hlen e1 ⊢
      rw [e1, e2]
      split
      · rw [List.length_dropLast, List.length_cons]
        have hsub := (cutHistory_sublist s.settings).length_le
        omega
      · rename_i hgt
        exact not_lt.mp hgt
  · unfold setSavePathHistoryLength savePathHistoryLength
    dsimp only
    split
    · exact length_mid0_le _ _ (le_trans hmin hlo)
    · exact hlen
  · intro stored
    unfold savePathHistoryLengthProxy
    exact le_trans hmin (le_max_left _ _)

theorem history_length_is_bounded_witness :
    ((setSavePathHistoryLength 2 (exampleDialog false).settings).savePathHistory.length : Int)
      ≤ savePathHistoryLength (setSavePathHistoryLength 2 (exampleDialog false).settings) :=
  (history_length_is_bounded exampleHost (exampleDialog false) 2 (by decide) (by decide)
    (by decide)).2.1

/-- C8: when no two entries of the stored history are equal as directories, the same holds
after saveSavePathHistory, whatever path is selected (Qt compares the absolute path of a
directory equal to the directory itself), and after setSavePathHistoryLength. -/
theorem history_has_distinct_dirs (h : Host) (s : State) (value : Int)
    (habs : h.dirKey (h.absolutePath s.selectedPath) = h.dirKey s.selectedPath)
    (hd : DistinctDirs h s.settings.savePathHistory) :
    DistinctDirs h (saveSavePathHistory h s).settings.savePathHistory
    ∧ DistinctDirs h (setSavePathHistoryLength value s.settings).savePathHistory := by
  constructor
  · cases hab : (cutHistory s.settings).any (fun dir => h.sameDir dir s.selectedPath) with
    | true => rw [saveSavePathHistory_present h s hab]; exact hd
    | false =>
      rw [(saveSavePathHistory_absent h s hab).1]
      have hcons : DistinctDirs h (h.absolutePath s.selectedPath :: cutHistory s.settings) := by
        unfold DistinctDirs
        rw [List.pairwise_cons]
        refine ⟨fun a ha => ?_, List.Pairwise.sublist (cutHistory_sublist s.settings) hd⟩
        have hne := (List.any_eq_false.mp hab) a ha
        unfold Host.sameDir at hne ⊢
        rw [habs]
        simp only [decide_eq_true_eq] at hne
        simp only [decide_eq_false_iff_not]
        exact fun e => hne e.symm
      split
      · exact List.Pairwise.sublist (List.dropLast_sublist _) hcons
      · exact hcons
  · unfold setSavePathHistoryLength
    dsimp only
    split
    · exact List.Pairwise.sublist (mid0_sublist _ _) hd
    · exact hd


theorem history_has_distinct_dirs_witness :
    DistinctDirs exampleHost
      (saveSavePathHistory exampleHost (exampleChosen "/new".toList)).settings.savePathHistory :=
  (history_has_distinct_dirs exampleHost (exampleChosen "/new".toList) 2 (by decide)
    (by unfold DistinctDirs; decide)).1

theorem cutHistory_eq_take (st : Settings) (hL : 1 ≤ savePathHistoryLength st) :
    cutHistory st = st.savePathHistory.take (savePathHistoryLength st).toNat := by
  unfold cutHistory mid0
  split
  · rw [if_neg (by omega)]
  · rw [List.take_of_length_le]
    omega

theorem saveSavePathHistory_history_congr (h : Host) (s1 s2 : State)
    (ht : s1.savePath_text = s2.savePath_text)
    (hh : s1.settings.savePathHistory = s2.settings.savePathHistory)
    (hl : s1.settings.savePathHistoryLength = s2.settings.savePathHistoryLength) :
    (saveSavePathHistory h s1).settings.savePathHistory
      = (saveSavePathHistory h s2).settings.savePathHistory := by
  have hc : cutHistory s1.settings = cutHistory s2.settings := by
    unfold cutHistory savePathHistoryLength; rw [hh, hl]
  have hsel : s1.selectedPath = s2.selectedPath := ht
  cases hab : (cutHistory s2.settings).any (fun dir => h.sameDir dir s2.selectedPath) with
  | true =>
    rw [saveSavePathHistory_present h s2 hab,
      saveSavePathHistory_present h s1 (by rw [hc, hsel]; exact hab), hh]
  | false =>
    rw [(saveSavePathHistory_absent h s2 hab).1,
      (saveSavePathHistory_absent h s1 (by rw [hc, hsel]; exact hab)).1, hc, hsel]
    unfold savePathHistoryLength
    rw [hl]

theorem accept_manual_history (h : Host) (s : State) (hm : s.comboTTM_currentIndex ≠ 1) :
    (accept h s).settings.savePathHistory = (saveSavePathHistory h s).settings.savePathHistory := by
  have hcap : (acceptCapture s).savePath_text = s.savePath_text
      ∧ (acceptCapture s).settings.savePathHistory = s.settings.savePathHistory
      ∧ (acceptCapture s).settings.savePathHistoryLength = s.settings.savePathHistoryLength
      ∧ (acceptCapture s).comboTTM_currentIndex = s.comboTTM_currentIndex := by
    unfold acceptCapture State.call
    dsimp only
    split <;> split <;> split <;> exact ⟨rfl, rfl, rfl, rfl⟩
  have hoff : ∀ t : State, (acceptHandOff t).settings.savePathHistory
      = t.settings.savePathHistory := by
    intro t
    unfold acceptHandOff State.call
    dsimp only
    split <;> rfl
  unfold accept
  rw [hoff]
  unfold acceptSavePath
  dsimp only
  rw [if_pos (by rw [hcap.2.2.2]; exact hm)]
  have := saveSavePathHistory_history_congr h
    { acceptCapture s with m_torrentParams :=
        { ({ (acceptCapture s).m_torrentParams with useAutoTMM := TriStateBool.False } :
            AddTorrentParams) with savePath := (acceptCapture s).selectedPath } } s
    hcap.1 hcap.2.1 hcap.2.2.1
  split
  · exact this
  · exact this

/-- C9 fails as stated: with the history /h1, /d, /h2 and /h2 chosen, the first entry of
the stored history after saveSavePathHistory is still /h1, which is another directory. -/
theorem chosen_path_already_stored_stays_behind :
    1 ≤ savePathHistoryLength (exampleChosen "/h2".toList).settings
    ∧ (exampleChosen "/h2".toList).settings.savePathHistory
        = ["/h1".toList, "/d".toList, "/h2".toList]
    ∧ (saveSavePathHistory exampleHost (exampleChosen "/h2".toList)).settings.savePathHistory.head?
        = some "/h1".toList
    ∧ exampleHost.sameDir "/h1".toList (exampleChosen "/h2".toList).selectedPath = false := by
  decide

/-- C9 as amended: with a history length of at least 1, when the chosen directory is not
among the first savePathHistoryLength() stored entries, saveSavePathHistory stores its
absolute path first (it resolves to the chosen directory) followed by the earlier entries
in their order, cut to one less than the history length; when it is among them the stored
history is unchanged; and accept in manual mode stores exactly that history. -/
theorem new_path_is_recorded_first (h : Host) (s : State)
    (hL : 1 ≤ savePathHistoryLength s.settings)
    (habs : h.dirKey (h.absolutePath s.selectedPath) = h.dirKey s.selectedPath) :
    ((s.settings.savePathHistory.take (savePathHistoryLength s.settings).toNat).any
        (fun dir => h.sameDir dir s.selectedPath) = false →
      (saveSavePathHistory h s).settings.savePathHistory
        = h.absolutePath s.selectedPath ::
            s.settings.savePathHistory.take ((savePathHistoryLength s.settings).toNat - 1)
      ∧ h.sameDir (h.absolutePath s.selectedPath) s.selectedPath = true)
    ∧ ((s.settings.savePathHistory.take (savePathHistoryLength s.settings).toNat).any
        (fun dir => h.sameDir dir s.selectedPath) = true →
      (saveSavePathHistory h s).settings.savePathHistory = s.settings.savePathHistory)
    ∧ (s.comboTTM_currentIndex ≠ 1 →
      (accept h s).settings.savePathHistory
        = (saveSavePathHistory h s).settings.savePathHistory) := by
  have hcut := cutHistory_eq_take s.settings hL
  refine ⟨fun hab => ⟨?_, ?_⟩, fun hab => ?_, accept_manual_history h s⟩
  · rw [← hcut] at hab
    rw [(saveSavePathHistory_absent h s hab).1, hcut]
    generalize hn : (savePathHistoryLength s.settings).toNat = n
    have hLn : savePathHistoryLength s.settings = (n : Int) := by omega
    have hn1 : 1 ≤ n := by omega
    rw [hLn]
    split
    · rename_i hgt
      rw [List.length_cons, List.length_take] at hgt
      have hlen : n ≤ s.settings.savePathHistory.length := by omega
      rw [List.dropLast_eq_take, List.length_cons, List.length_take]
      have e : min n s.settings.savePathHistory.length + 1 - 1 = (n - 1) + 1 := by omega
      rw [e, List.take_succ_cons, List.take_take]
      congr 2
      omega
    · rename_i hgt
      rw [List.length_cons, List.length_take] at hgt
      have hlen : s.settings.savePathHistory.length ≤ n - 1 := by omega
      rw [List.take_of_length_le (by omega), List.take_of_length_le hlen]
  · unfold Host.sameDir
    rw [habs]
    simp
  · rw [← hcut] at hab
    rw [saveSavePathHistory_present h s hab]

theorem new_path_is_recorded_first_witness :
    (saveSavePathHistory exampleHost (exampleChosen "/new".toList)).settings.savePathHistory
      = ["/new".toList, "/h1".toList, "/d".toList, "/h2".toList] :=
  ((new_path_is_recorded_first exampleHost (exampleChosen "/new".toList) (by decide)
      (by decide)).1 (by decide)).1

/-! ## Switching the management mode -/

theorem items_savePath_setCurrentIndex (s : State) (i : Int) :
    (savePath_setCurrentIndex s i).savePath_items = s.savePath_items := by
  unfold savePath_setCurrentIndex; split <;> rfl

theorem enabled_savePath_setCurrentIndex (s : State) (i : Int) :
    (savePath_setCurrentIndex s i).groupBoxSavePath_enabled = s.groupBoxSavePath_enabled := by
  unfold savePath_setCurrentIndex; split <;> rfl

theorem enabled_savePath_addItem (s : State) (t : QString) :
    (savePath_addItem s t).groupBoxSavePath_enabled = s.groupBoxSavePath_enabled := by
  unfold savePath_addItem; split <;> rfl

theorem items_savePath_addItem (s : State) (t : QString) :
    (savePath_addItem s t).savePath_items = s.savePath_items ++ [t] := by
  unfold savePath_addItem
  split
  · rename_i he; rw [he]; rfl
  · rfl

theorem items_savePath_insertItem0 (s : State) (t : QString) :
    (savePath_insertItem0 s t).savePath_items = t :: s.savePath_items := by
  unfold savePath_insertItem0
  split
  · rename_i he; rw [he]
  · rfl

theorem items_foldl_addItem (h : Host) (d : QString) (l : QStringList) (s : State) :
    (l.foldl (fun s savePath =>
        if !(h.sameDir savePath d) then savePath_addItem s savePath else s) s).savePath_items
      = s.savePath_items ++ l.filter (fun p => !(h.sameDir p d)) := by
  induction l generalizing s with
  | nil => simp
  | cons a l ih =>
    rw [List.foldl_cons, ih]
    cases hc : h.sameDir a d with
    | true => simp [hc]
    | false => simp [hc, items_savePath_addItem]

theorem indexOfSavePathFrom_neg (h : Host) (p : QString) (l : QStringList) (i : Nat) :
    (indexOfSavePathFrom h p i l < 0) ↔ l.any (fun item => h.sameDir item p) = false := by
  induction l generalizing i with
  | nil => simp [indexOfSavePathFrom]
  | cons a l ih =>
    unfold indexOfSavePathFrom
    cases hc : h.sameDir a p with
    | true => simp [hc]
    | false => simp only [hc, Bool.false_eq_true, if_false, List.any_cons, Bool.false_or]; exact ih (i + 1)

theorem items_setSavePath (h : Host) (p : QString) (s : State) :
    (setSavePath h p s).savePath_items =
      if s.savePath_items.any (fun item => h.sameDir item p) then s.savePath_items
      else p :: s.savePath_items := by
  unfold setSavePath indexOfSavePath
  dsimp only
  have hidx := indexOfSavePathFrom_neg h p s.savePath_items 0
  cases hany : s.savePath_items.any (fun item => h.sameDir item p) with
  | true =>
    have : ¬ indexOfSavePathFrom h p 0 s.savePath_items < 0 := by
      rw [hidx, hany]; simp
    rw [if_neg this]
    show (updateDiskSpaceLabel _).savePath_items = _
    simp only [Bool.true_eq_false, if_true, if_false]
    exact items_savePath_setCurrentIndex _ _
  | false =>
    rw [if_pos (hidx.mpr hany)]
    show (updateDiskSpaceLabel _).savePath_items = _
    simp only [Bool.false_eq_true, if_false]
    show (savePath_setCurrentIndex (savePath_insertItem0 s p) 0).savePath_items = _
    rw [items_savePath_setCurrentIndex, items_savePath_insertItem0]

theorem items_after_setSavePath (h : Host) (s t : State) (hcore : t.core = s.core)
    (hitems : t.savePath_items = s.session.defaultSavePath ::
      s.settings.savePathHistory.filter (fun p => !(h.sameDir p s.session.defaultSavePath))) :
    (if !t.m_torrentParams.savePath.isEmpty then setSavePath h t.m_torrentParams.savePath t
      else t).savePath_items = manualSavePathList h s := by
  have hparams : t.m_torrentParams = s.m_torrentParams := congrArg (fun c => c.2.2.2.2.1) hcore
  unfold manualSavePathList
  rw [hparams]
  cases he : s.m_torrentParams.savePath.isEmpty with
  | true => simp only [Bool.not_true, Bool.false_eq_true, if_false, if_true]; exact hitems
  | false =>
    simp only [Bool.not_false, if_true, Bool.false_eq_true, if_false]
    rw [items_setSavePath, hitems]

theorem items_populateSavePathComboBox (h : Host) (s : State) :
    (populateSavePathComboBox h s).savePath_items = manualSavePathList h s := by
  have hc := core_foldl_addItem h s.session.defaultSavePath s.settings.savePathHistory
    (savePath_addItem (savePath_clear s) s.session.defaultSavePath)
  rw [core_savePath_addItem, core_savePath_clear] at hc
  have hitems := items_foldl_addItem h s.session.defaultSavePath s.settings.savePathHistory
    (savePath_addItem (savePath_clear s) s.session.defaultSavePath)
  rw [items_savePath_addItem] at hitems
  have hclear : (savePath_clear s).savePath_items = [] := rfl
  rw [hclear, List.nil_append, List.singleton_append] at hitems
  have hsettings : (savePath_addItem (savePath_clear s) s.session.defaultSavePath).settings
      = s.settings :=
    congrArg (fun c => c.2.1) (core_savePath_addItem (savePath_clear s) s.session.defaultSavePath)
  unfold populateSavePathComboBox
  simp only [hsettings]
  exact items_after_setSavePath h s _ hc hitems

theorem construct_shows_manual_list (h : Host) (session : Session) (settings : Settings)
    (p : AddTorrentParams) :
    (construct h session settings p).savePath_items
      = manualSavePathList h (construct h session settings p) := by
  have key : ∀ s0 : State,
      (populateSavePathComboBox h s0).savePath_items = manualSavePathList h s0
      ∧ (populateSavePathComboBox h s0).session = s0.session
      ∧ (populateSavePathComboBox h s0).settings = s0.settings
      ∧ (populateSavePathComboBox h s0).m_torrentParams = s0.m_torrentParams := fun s0 =>
    ⟨items_populateSavePathComboBox h s0,
     congrArg (fun c => c.1) (core_populateSavePathComboBox h s0),
     congrArg (fun c => c.2.1) (core_populateSavePathComboBox h s0),
     congrArg (fun c => c.2.2.2.2.1) (core_populateSavePathComboBox h s0)⟩
  unfold construct
  dsimp only
  unfold manualSavePathList
  dsimp only
  rw [(key _).1, (key _).2.1, (key _).2.2.1, (key _).2.2.2]
  rfl

/-- C10: TMMChanged(1) leaves the save path list with the category save path as its only
entry and disables the save path group; TMMChanged with any other index afterwards enables
the group again and shows the default save path followed by the stored history entries
that are not the default directory, with the save path of the caller in front when it is
not among them: the list populateSavePathComboBox shows for the dialog, the list the same
call shows without the switch in between, and the list a newly constructed dialog shows. -/
theorem mode_switch_restores_save_path_list (h : Host) (s : State) (index : Int)
    (hindex : index ≠ 1) :
    (TMMChanged h 1 s).savePath_items
        = [s.session.categorySavePath s.categoryComboBox_currentText]
    ∧ (TMMChanged h 1 s).groupBoxSavePath_enabled = false
    ∧ (TMMChanged h index (TMMChanged h 1 s)).groupBoxSavePath_enabled = true
    ∧ (TMMChanged h index (TMMChanged h 1 s)).savePath_items = manualSavePathList h s
    ∧ (TMMChanged h index (TMMChanged h 1 s)).savePath_items
        = (populateSavePathComboBox h s).savePath_items
    ∧ (TMMChanged h index (TMMChanged h 1 s)).savePath_items
        = (TMMChanged h index s).savePath_items
    ∧ ∀ (session : Session) (settings : Settings) (inParams : AddTorrentParams),
        (TMMChanged h index
            (TMMChanged h 1 (construct h session settings inParams))).savePath_items
          = (construct h session settings inParams).savePath_items := by
  have hauto : (TMMChanged h 1 s).savePath_items
        = [s.session.categorySavePath s.categoryComboBox_currentText]
      ∧ (TMMChanged h 1 s).groupBoxSavePath_enabled = false := by
    unfold TMMChanged
    simp only [ne_eq, not_true_eq_false, if_false]
    unfold showAdvancedSettings
    simp only [if_true]
    constructor
    · show (savePath_addItem _ _).savePath_items = _
      rw [items_savePath_addItem]
      rfl
    · show (savePath_addItem _ _).groupBoxSavePath_enabled = false
      rw [enabled_savePath_addItem]
      rfl
  have hmanual : ∀ t : State, (TMMChanged h index t).savePath_items = manualSavePathList h t
      ∧ (TMMChanged h index t).groupBoxSavePath_enabled = true := by
    intro t
    unfold TMMChanged
    rw [if_pos hindex]
    dsimp only
    constructor
    · show (savePath_setCurrentIndex _ _).savePath_items = _
      rw [items_savePath_setCurrentIndex]
      exact items_populateSavePathComboBox h t
    · show (savePath_setCurrentIndex _ _).groupBoxSavePath_enabled = true
      rw [enabled_savePath_setCurrentIndex]
  have hlistOf : ∀ t : State, manualSavePathList h (TMMChanged h 1 t) = manualSavePathList h t := by
    intro t
    have hc := core_TMMChanged_auto h t
    have h1 : (TMMChanged h 1 t).session = t.session := congrArg (fun c => c.1) hc
    have h2 : (TMMChanged h 1 t).settings = t.settings := congrArg (fun c => c.2.1) hc
    have h3 : (TMMChanged h 1 t).m_torrentParams = t.m_torrentParams :=
      congrArg (fun c => c.2.2.2.2.1) hc
    unfold manualSavePathList
    rw [h1, h2, h3]
  refine ⟨hauto.1, hauto.2, (hmanual _).2, ?_, ?_, ?_, ?_⟩
  · rw [(hmanual _).1, hlistOf]
  · rw [(hmanual _).1, hlistOf, items_populateSavePathComboBox]
  · rw [(hmanual _).1, hlistOf, (hmanual s).1]
  · intro session settings inParams
    rw [(hmanual _).1, hlistOf, construct_shows_manual_list]

theorem mode_switch_restores_save_path_list_witness :
    (TMMChanged exampleHost 0 (TMMChanged exampleHost 1 (exampleDialog false))).savePath_items
      = (TMMChanged exampleHost 0 (exampleDialog false)).savePath_items :=
  (mode_switch_restores_save_path_list exampleHost (exampleDialog false) 0
    (by decide)).2.2.2.2.2.1

/-! ## Renaming files and folders -/

/-- C4 at the failing input: in the torrent with the files a/b/c.txt, a/x, a/b/d.txt and
a/e/f.txt, renaming the file a/x to b, the name of its sibling folder, is not rejected:
renameFile and setData are called and the snapshot holds the file path a/b next to
a/b/c.txt; and renaming the folder a/e to x, the name of its sibling file, is not
rejected either and leaves the snapshot with a/x/f.txt next to the file a/x.  Renaming
onto a sibling of the same kind (file a/b/c.txt to d.txt, folder a/e to b) is rejected
with a warning and no change. -/
theorem rename_onto_sibling_of_other_kind_is_accepted :
    (exampleLoaded [[0, 1]]).m_torrentInfo.files.map FileEntry.path
        = ["a/b/c.txt".toList, "a/x".toList, "a/b/d.txt".toList, "a/e/f.txt".toList]
    ∧ (renameSelectedFile exampleHost true "b".toList (exampleLoaded [[0, 1]])).m_torrentInfo.files.map
        FileEntry.path
        = ["a/b/c.txt".toList, "a/b".toList, "a/b/d.txt".toList, "a/e/f.txt".toList]
    ∧ (renameSelectedFile exampleHost true "b".toList (exampleLoaded [[0, 1]])).calls
        = [Call.renameFile 1 "a/b".toList, Call.setData [0, 1] "b".toList]
    ∧ (renameSelectedFile exampleHost true "x".toList (exampleLoaded [[0, 2]])).m_torrentInfo.files.map
        FileEntry.path
        = ["a/b/c.txt".toList, "a/x".toList, "a/b/d.txt".toList, "a/x/f.txt".toList]
    ∧ (renameSelectedFile exampleHost true "x".toList (exampleLoaded [[0, 2]])).calls
        = [Call.renameFile 3 "a/x/f.txt".toList, Call.setData [0, 2] "x".toList]
    ∧ (renameSelectedFile exampleHost true "d.txt".toList (exampleLoaded [[0, 0, 0]])).calls
        = [Call.warning Alert.renameFileNameInUse]
    ∧ (renameSelectedFile exampleHost true "d.txt".toList
          (exampleLoaded [[0, 0, 0]])).m_torrentInfo = exampleInfo
    ∧ (renameSelectedFile exampleHost true "b".toList (exampleLoaded [[0, 2]])).calls
        = [Call.warning Alert.renameFolderNameInUse]
    ∧ (renameSelectedFile exampleHost true "b".toList
          (exampleLoaded [[0, 2]])).m_torrentInfo = exampleInfo := by
  decide

/-- C6: when the entered name, trimmed (the white space of QChar::isSpace removed from both
ends) and without the temporary-file suffix, equals the current name of the selected
file, renameSelectedFile leaves the metadata snapshot and the tree model as they were and
logs neither a renameFile nor a setData call; with a confirmed, valid name the whole
state is unchanged. -/
theorem rename_to_current_name_is_noop (h : Host) (s : State) (ok : Bool) (text : QString)
    (model : ContentModel) (modelIndex : ModelIndex) (itemName : QString) (fileIndex : Nat)
    (hmodel : s.m_contentModel = some model)
    (hsel : s.contentTreeView_selectedRows = [modelIndex])
    (hitem : itemAt model.rootItems modelIndex = some (ContentItem.file itemName fileIndex))
    (hsame : (if endsWith (trimmed h.isSpace text) h.QB_EXT then
                chop (trimmed h.isSpace text) h.QB_EXT.length
              else trimmed h.isSpace text) = s.m_torrentInfo.fileName fileIndex) :
    (renameSelectedFile h ok text s).m_torrentInfo = s.m_torrentInfo
    ∧ (renameSelectedFile h ok text s).m_contentModel = s.m_contentModel
    ∧ (∀ c ∈ (renameSelectedFile h ok text s).calls, c.isRename = true → c ∈ s.calls)
    ∧ (ok = true → (trimmed h.isSpace text).isEmpty = false →
        h.isValidFileSystemName (trimmed h.isSpace text) = true →
        renameSelectedFile h ok text s = s) := by
  have hbranch : renameFileBranch h modelIndex fileIndex (trimmed h.isSpace text) model s = s := by
    unfold renameFileBranch
    dsimp only
    rw [if_pos hsame.symm]
  unfold renameSelectedFile
  rw [hmodel, hsel]
  dsimp only
  rw [hitem]
  dsimp only
  split
  · exact ⟨rfl, hmodel, fun c hc _ => hc, fun hok => by simp_all⟩
  · split
    · rename_i hbad
      refine ⟨rfl, hmodel, fun c hc hp => mem_of_mem_snoc rfl hc hp, ?_⟩
      intro _ he hv
      rw [he, hv] at hbad
      simp at hbad
    · rw [hbranch]
      exact ⟨rfl, hmodel, fun c hc _ => hc, fun _ _ _ => rfl⟩

theorem rename_to_current_name_is_noop_witness :
    trimmed exampleHost.isSpace (Char.ofNat 0xA0 :: " x.!qB".toList ++ [Char.ofNat 0x0B])
      = "x.!qB".toList
    ∧ renameSelectedFile exampleHost true
        (Char.ofNat 0xA0 :: " x.!qB".toList ++ [Char.ofNat 0x0B]) (exampleLoaded [[0, 1]])
      = exampleLoaded [[0, 1]] :=
  ⟨by decide,
   (rename_to_current_name_is_noop exampleHost (exampleLoaded [[0, 1]]) true
    (Char.ofNat 0xA0 :: " x.!qB".toList ++ [Char.ofNat 0x0B])
    (setupModelData exampleInfo) [0, 1] "x".toList 1 rfl rfl rfl (by decide)).2.2.2
    rfl (by decide) (by decide)⟩

theorem wantedSize_loop (priorities : List Int) (info : TorrentInfo) (k : Nat) :
    (List.range k).foldl
      (fun torrentSize i =>
        if priorities.getD i 0 > 0 then (torrentSize + info.fileSize i) % 2 ^ 64
        else torrentSize) 0
    = (((List.range k).filter (fun i => decide (priorities.getD i 0 > 0))).map
        info.fileSize).sum % 2 ^ 64 := by
  induction k with
  | zero => rfl
  | succ k ih =>
    rw [List.range_succ, List.foldl_append, ih, List.filter_append, List.map_append,
      List.sum_append]
    rw [List.foldl_cons, List.foldl_nil]
    by_cases hp : priorities.getD k 0 > 0
    · have hf : List.filter (fun i => decide (priorities.getD i 0 > 0)) [k] = [k] := by
        simp only [List.filter, hp, decide_True]
      rw [if_pos hp, hf, List.map_singleton, List.sum_singleton, Nat.mod_add_mod]
    · have hf : List.filter (fun i => decide (priorities.getD i 0 > 0)) [k] = [] := by
        simp only [List.filter, hp, decide_False]
      rw [if_neg hp, hf, List.map_nil, List.sum_nil, Nat.add_zero]

theorem range_map_fileSize (info : TorrentInfo) :
    (List.range info.filesCount).map info.fileSize = info.files.map FileEntry.size := by
  apply List.ext_getElem?
  intro i
  unfold TorrentInfo.filesCount TorrentInfo.fileSize
  rw [List.getElem?_map, List.getElem?_map]
  by_cases hi : i < info.files.length
  · rw [List.getElem?_range hi]
    cases hget : info.files[i]? with
    | none => exact absurd (List.getElem?_eq_none_iff.mp hget) (by omega)
    | some f => simp only [Option.map_some', hget]
  · rw [List.getElem?_eq_none (by rw [List.length_range]; omega),
      List.getElem?_eq_none (by omega)]
    rfl


theorem wantedSizeSpec_le_totalSize (priorities : List Int) (info : TorrentInfo) :
    wantedSizeSpec priorities info ≤ info.totalSize := by
  unfold wantedSizeSpec TorrentInfo.totalSize
  rw [← range_map_fileSize]
  exact List.Sublist.sum_le_sum
    (List.Sublist.map _ (List.filter_sublist _)) (fun a _ => Nat.zero_le a)

/-- C11: updateDiskSpaceLabel shows, with metadata and a built tree, the sum of fileSize(i)
over the files whose priority is not 0, for every priority vector that has one entry per
file; with metadata and no tree it shows the total size of the torrent, and without
metadata it shows 0.  The priorities are the file priorities of the content model, which
are never negative (the code tests priority > 0), and the total size fits the unsigned
64-bit counter of the code. -/
theorem size_label_sums_wanted_files (s : State)
    (hfit : s.m_torrentInfo.totalSize < 2 ^ 64) :
    (∀ model, s.m_hasMetadata = true → s.m_contentModel = some model →
      model.filePriorities.length = s.m_torrentInfo.filesCount →
      (∀ p ∈ model.filePriorities, 0 ≤ p) →
      (updateDiskSpaceLabel s).size_lbl_torrentSize
        = wantedSizeSpec model.filePriorities s.m_torrentInfo)
    ∧ (s.m_hasMetadata = true → s.m_contentModel = none →
      (updateDiskSpaceLabel s).size_lbl_torrentSize = s.m_torrentInfo.totalSize)
    ∧ (s.m_hasMetadata = false → (updateDiskSpaceLabel s).size_lbl_torrentSize = 0) := by
  refine ⟨fun model hmeta hmodel hlen hnonneg => ?_, fun hmeta hmodel => ?_, fun hmeta => ?_⟩
  · have hfilter : (List.range s.m_torrentInfo.filesCount).filter
          (fun i => decide (model.filePriorities.getD i 0 > 0))
        = (List.range s.m_torrentInfo.filesCount).filter
          (fun i => model.filePriorities.getD i 0 != 0) := by
      apply List.filter_congr
      intro i hi
      have hi' : i < model.filePriorities.length := by
        rw [hlen]; exact List.mem_range.mp hi
      have hp : 0 ≤ model.filePriorities.getD i 0 := by
        rw [List.getD_eq_getElem _ _ hi']
        exact hnonneg _ (List.getElem_mem _)
      generalize model.filePriorities.getD i 0 = p at hp
      rw [Bool.eq_iff_iff]
      simp only [decide_eq_true_eq, bne_iff_ne, ne_eq]
      omega
    show (if s.m_hasMetadata = true then
        (match s.m_contentModel with
          | some model => wantedSize model.filePriorities s.m_torrentInfo
          | none => s.m_torrentInfo.totalSize % 2 ^ 64)
        else 0) = _
    rw [if_pos hmeta, hmodel]
    show wantedSize model.filePriorities s.m_torrentInfo = _
    unfold wantedSize
    rw [wantedSize_loop, hlen, hfilter]
    exact Nat.mod_eq_of_lt
      (lt_of_le_of_lt (wantedSizeSpec_le_totalSize model.filePriorities s.m_torrentInfo) hfit)
  · show (if s.m_hasMetadata = true then
        (match s.m_contentModel with
          | some model => wantedSize model.filePriorities s.m_torrentInfo
          | none => s.m_torrentInfo.totalSize % 2 ^ 64)
        else 0) = _
    rw [if_pos hmeta, hmodel]
    exact Nat.mod_eq_of_lt hfit
  · show (if s.m_hasMetadata = true then
        (match s.m_contentModel with
          | some model => wantedSize model.filePriorities s.m_torrentInfo
          | none => s.m_torrentInfo.totalSize % 2 ^ 64)
        else 0) = _
    rw [if_neg (by rw [hmeta]; exact Bool.false_ne_true)]

theorem size_label_sums_wanted_files_witness :
    examplePrioritised.m_torrentInfo.totalSize < 2 ^ 64
    ∧ (updateDiskSpaceLabel examplePrioritised).size_lbl_torrentSize
        = wantedSizeSpec [1, 0, 6, 7] examplePrioritised.m_torrentInfo
    ∧ wantedSizeSpec [1, 0, 6, 7] examplePrioritised.m_torrentInfo = 20 :=
  ⟨by decide,
   (size_label_sums_wanted_files examplePrioritised (by decide)).1
     ⟨(setupModelData exampleInfo).rootItems, [1, 0, 6, 7]⟩ (by decide) rfl (by decide)
     (by decide),
   by decide⟩

/-! ## Waiting for the metadata of a magnet link -/

theorem core_TMMChanged (h : Host) (index : Int) (s : State) :
    (TMMChanged h index s).core = s.core := by
  by_cases hi : index = 1
  · rw [hi]; exact core_TMMChanged_auto h s
  · unfold TMMChanged
    rw [if_pos hi]
    dsimp only
    show (savePath_setCurrentIndex _ _).core = _
    rw [core_savePath_setCurrentIndex]
    exact core_populateSavePathComboBox h s

theorem core_setupTreeview_waiting (h : Host) (s : State) (hmeta : s.m_hasMetadata = false) :
    (setupTreeview h s).core = s.core := by
  unfold setupTreeview
  simp only [hmeta, Bool.not_false, if_true]
  rw [core_showAdvancedSettings]
  rfl

theorem core_fields {s t : State} (hc : t.core = s.core) :
    t.session = s.session ∧ t.settings = s.settings ∧ t.calls = s.calls
    ∧ t.m_contentModel = s.m_contentModel ∧ t.m_torrentParams = s.m_torrentParams
    ∧ t.categoryComboBox_currentText = s.categoryComboBox_currentText
    ∧ t.m_hasMetadata = s.m_hasMetadata ∧ t.m_torrentInfo = s.m_torrentInfo
    ∧ t.m_hash = s.m_hash := by
  unfold State.core at hc
  simp only [Prod.mk.injEq] at hc
  exact hc

theorem setupTreeview_with_metadata (h : Host) (s : State) (hmeta : s.m_hasMetadata = true) :
    (setupTreeview h s).m_contentModel = some (setupModelData s.m_torrentInfo)
    ∧ (setupTreeview h s).m_torrentInfo = s.m_torrentInfo
    ∧ (setupTreeview h s).m_hasMetadata = true
    ∧ (setupTreeview h s).calls = s.calls
    ∧ (setupTreeview h s).m_hash = s.m_hash := by
  unfold setupTreeview
  simp only [hmeta, Bool.not_true, Bool.false_eq_true, if_false]
  refine ⟨?_, ?_, ?_, ?_, ?_⟩
  · rw [(core_fields (core_showAdvancedSettings _ _)).2.2.2.1]; rfl
  · rw [(core_fields (core_showAdvancedSettings _ _)).2.2.2.2.2.2.2.1]; rfl
  · rw [(core_fields (core_showAdvancedSettings _ _)).2.2.2.2.2.2.1]; rfl
  · rw [(core_fields (core_showAdvancedSettings _ _)).2.2.1]; rfl
  · rw [(core_fields (core_showAdvancedSettings _ _)).2.2.2.2.2.2.2.2]; rfl

theorem construct_has_no_metadata (h : Host) (session : Session) (settings : Settings)
    (p : AddTorrentParams) :
    (construct h session settings p).m_hasMetadata = false := by
  unfold construct
  dsimp only
  rw [(core_fields (core_populateSavePathComboBox h _)).2.2.2.2.2.2.1]

/-- C12: when loadMagnet succeeds on a dialog that has no metadata and no tree, as every
newly constructed dialog, the progress indicator is visible afterwards, m_hasMetadata is
still false, there is still no tree and m_hash is the hash of the link.  updateMetadata
with the hash of the dialog and a valid payload makes the payload the metadata snapshot,
sets m_hasMetadata, builds the tree of the payload and hides the indicator; with an
invalid payload it leaves the snapshot, m_hasMetadata and the tree unchanged and the
indicator hidden. -/
theorem magnet_waits_for_metadata (h : Host) (s : State) (magnetUri : MagnetUri)
    (info : TorrentInfo)
    (hwaiting : s.m_hasMetadata = false) (hnotree : s.m_contentModel = none)
    (hok : (loadMagnet h magnetUri s).1 = true) :
    ((loadMagnet h magnetUri s).2.progMetaLoading_visible = true
      ∧ (loadMagnet h magnetUri s).2.m_hasMetadata = false
      ∧ (loadMagnet h magnetUri s).2.m_contentModel = none
      ∧ (loadMagnet h magnetUri s).2.m_hash = magnetUri.hash)
    ∧ (∀ d : State, info.hash = d.m_hash → info.isValid = true →
        (updateMetadata h info d).m_torrentInfo = info
        ∧ (updateMetadata h info d).m_hasMetadata = true
        ∧ (updateMetadata h info d).m_contentModel = some (setupModelData info)
        ∧ (updateMetadata h info d).progMetaLoading_visible = false)
    ∧ (∀ d : State, info.hash = d.m_hash → info.isValid = false →
        (updateMetadata h info d).m_torrentInfo = d.m_torrentInfo
        ∧ (updateMetadata h info d).m_hasMetadata = d.m_hasMetadata
        ∧ (updateMetadata h info d).m_contentModel = d.m_contentModel
        ∧ (updateMetadata h info d).progMetaLoading_visible = false)
    ∧ (∀ (session : Session) (settings : Settings) (inParams : AddTorrentParams),
        (construct h session settings inParams).m_hasMetadata = false
        ∧ (construct h session settings inParams).m_contentModel = none) := by
  refine ⟨?_, ?_, ?_, fun session settings inParams =>
    ⟨construct_has_no_metadata h session settings inParams,
     (construct_fresh h session settings inParams).2.2⟩⟩
  · have hvalid : magnetUri.isValid = true := by
      by_contra hv
      unfold loadMagnet at hok
      simp [hv] at hok
    have hunknown : s.session.isKnownTorrent magnetUri.hash = false := by
      cases hk : s.session.isKnownTorrent magnetUri.hash with
      | false => rfl
      | true => rw [(loadMagnet_known h s magnetUri hk).1] at hok; cases hok
    unfold loadMagnet
    simp only [hvalid, hunknown, Bool.not_true, Bool.false_eq_true, if_false]
    have key : ∀ (t : State) (index : Int), t.m_hasMetadata = false → t.m_contentModel = none →
        t.m_hash = magnetUri.hash →
        (TMMChanged h index (setupTreeview h t)).m_hasMetadata = false
        ∧ (TMMChanged h index (setupTreeview h t)).m_contentModel = none
        ∧ (TMMChanged h index (setupTreeview h t)).m_hash = magnetUri.hash := by
      intro t index h1 h2 h3
      obtain ⟨_, _, _, a4, _, _, a7, _, a9⟩ := core_fields (core_TMMChanged h index (setupTreeview h t))
      obtain ⟨_, _, _, b4, _, _, b7, _, b9⟩ := core_fields (core_setupTreeview_waiting h t h1)
      exact ⟨a7.trans (b7.trans h1), a4.trans (b4.trans h2), a9.trans (b9.trans h3)⟩
    refine ⟨rfl, ?_, ?_, ?_⟩
    · refine (key _ _ ?_ ?_ ?_).1
      · exact hwaiting
      · exact hnotree
      · rfl
    · refine (key _ _ ?_ ?_ ?_).2.1
      · exact hwaiting
      · exact hnotree
      · rfl
    · refine (key _ _ ?_ ?_ ?_).2.2
      · exact hwaiting
      · exact hnotree
      · rfl
  · intro d hhash hvalid
    unfold updateMetadata
    rw [if_neg (not_not.mpr hhash)]
    simp only [hvalid, Bool.not_true, Bool.false_eq_true, if_false]
    refine ⟨?_, ?_, ?_, rfl⟩
    · show (setupTreeview h _).m_torrentInfo = info
      rw [(setupTreeview_with_metadata h _ rfl).2.1]; rfl
    · show (setupTreeview h _).m_hasMetadata = true
      exact (setupTreeview_with_metadata h _ rfl).2.2.1
    · show (setupTreeview h _).m_contentModel = some (setupModelData info)
      rw [(setupTreeview_with_metadata h _ rfl).1]; rfl
  · intro d hhash hvalid
    unfold updateMetadata
    rw [if_neg (not_not.mpr hhash)]
    simp only [hvalid, Bool.not_false, if_true]
    exact ⟨rfl, rfl, rfl, rfl⟩

theorem magnet_waits_for_metadata_witness :
    (loadMagnet exampleHost exampleMagnet
      (construct exampleHost sessionEmpty exampleSettings AddTorrentParams.default)).1 = true
    ∧ exampleWaiting.progMetaLoading_visible = true
    ∧ exampleWaiting.m_hasMetadata = false
    ∧ (updateMetadata exampleHost exampleInfo exampleWaiting).m_contentModel
        = some (setupModelData exampleInfo)
    ∧ (updateMetadata exampleHost exampleInfo exampleWaiting).progMetaLoading_visible = false :=
  ⟨by decide,
   (magnet_waits_for_metadata exampleHost
      (construct exampleHost sessionEmpty exampleSettings AddTorrentParams.default)
      exampleMagnet exampleInfo (by decide) rfl (by decide)).1.1,
   (magnet_waits_for_metadata exampleHost
      (construct exampleHost sessionEmpty exampleSettings AddTorrentParams.default)
      exampleMagnet exampleInfo (by decide) rfl (by decide)).1.2.1,
   ((magnet_waits_for_metadata exampleHost
      (construct exampleHost sessionEmpty exampleSettings AddTorrentParams.default)
      exampleMagnet exampleInfo (by decide) rfl (by decide)).2.1
        exampleWaiting (by decide) (by decide)).2.2.1,
   ((magnet_waits_for_metadata exampleHost
      (construct exampleHost sessionEmpty exampleSettings AddTorrentParams.default)
      exampleMagnet exampleInfo (by decide) rfl (by decide)).2.1
        exampleWaiting (by decide) (by decide)).2.2.2⟩

/-- C13 at the failing input: the example dialog loads the example magnet link and the
session delivers metadataLoaded with the metadata of that hash.  The slot logs its
disconnect call, yet the connection from the session to the dialog is still in force
afterwards.  The user then renames the file a/x to z, and the session delivers the same
notification once more: the slot runs again, the snapshot is replaced (the path is a/x
again), the tree is rebuilt (the row shows x again), and with an invalid payload of the
same hash another error box is raised. -/
theorem second_notification_is_applied_again :
    exampleWaiting.m_hasMetadata = false
    ∧ connectionsAfter exampleWaiting.calls = [⟨QObjectId.session, QObjectId.dialog⟩]
    ∧ (metadataLoaded exampleHost exampleInfo exampleWaiting).m_torrentInfo = exampleInfo
    ∧ (metadataLoaded exampleHost exampleInfo exampleWaiting).calls.count
        Call.disconnectMetadataLoaded = 1
    ∧ connectionsAfter (metadataLoaded exampleHost exampleInfo exampleWaiting).calls
        = [⟨QObjectId.session, QObjectId.dialog⟩]
    ∧ exampleRenamed.m_torrentInfo.filePath 1 = "a/z".toList
    ∧ exampleRenamed.rowName [0, 1] = some "z".toList
    ∧ (metadataLoaded exampleHost exampleInfo exampleRenamed).m_torrentInfo.filePath 1
        = "a/x".toList
    ∧ (metadataLoaded exampleHost exampleInfo exampleRenamed).rowName [0, 1] = some "x".toList
    ∧ (metadataLoaded exampleHost exampleInfo exampleRenamed).calls.count
        Call.disconnectMetadataLoaded = 2
    ∧ exampleRenamed.calls.count (Call.critical Alert.invalidMetadata) = 0
    ∧ (metadataLoaded exampleHost { exampleInfo with isValid := false }
        exampleRenamed).calls.count (Call.critical Alert.invalidMetadata) = 1 := by
  decide

/-! ## Confirming the dialog -/

theorem handOff_saveSavePathHistory (h : Host) (s : State) :
    (saveSavePathHistory h s).handOff = s.handOff := by
  cases hab : (cutHistory s.settings).any (fun dir => h.sameDir dir s.selectedPath) with
  | true => rw [saveSavePathHistory_present h s hab]
  | false =>
    unfold cutHistory at hab
    unfold saveSavePathHistory
    simp only [hab]
    rfl

theorem acceptCapture_facts (s : State) :
    (acceptCapture s).m_torrentParams.addPaused
        = TriStateBool.ofBool (!s.startTorrentCheckBox_checked)
    ∧ (acceptCapture s).m_torrentParams.savePath = s.m_torrentParams.savePath
    ∧ (acceptCapture s).m_hasMetadata = s.m_hasMetadata
    ∧ (acceptCapture s).m_hash = s.m_hash
    ∧ (acceptCapture s).m_torrentInfo = s.m_torrentInfo
    ∧ (acceptCapture s).m_torrentGuard = s.m_torrentGuard
    ∧ (acceptCapture s).comboTTM_currentIndex = s.comboTTM_currentIndex
    ∧ (acceptCapture s).defaultSavePathCheckBox_checked = s.defaultSavePathCheckBox_checked
    ∧ (acceptCapture s).savePath_text = s.savePath_text := by
  unfold acceptCapture State.call
  dsimp only
  split <;> split <;> split <;> exact ⟨rfl, rfl, rfl, rfl, rfl, rfl, rfl, rfl, rfl⟩

theorem acceptCapture_calls (s : State) :
    (acceptCapture s).calls
      = s.calls ++ (if s.m_hasMetadata then [] else [Call.disconnectMetadataLoaded]) := by
  unfold acceptCapture State.call
  dsimp only
  cases hm : s.m_hasMetadata
  · simp only [Bool.not_false, if_true, Bool.false_eq_true, if_false]
    split <;> split <;> rfl
  · simp only [Bool.not_true, Bool.false_eq_true, if_false, if_true, List.append_nil]
    split <;> split <;> rfl


theorem handOff_fields {s t : State} (hc : t.handOff = s.handOff) :
    t.calls = s.calls ∧ t.m_torrentParams = s.m_torrentParams
    ∧ t.m_hasMetadata = s.m_hasMetadata ∧ t.m_hash = s.m_hash
    ∧ t.m_torrentInfo = s.m_torrentInfo ∧ t.m_torrentGuard = s.m_torrentGuard
    ∧ t.comboTTM_currentIndex = s.comboTTM_currentIndex
    ∧ t.defaultSavePathCheckBox_checked = s.defaultSavePathCheckBox_checked
    ∧ t.savePath_text = s.savePath_text := by
  unfold State.handOff at hc
  simp only [Prod.mk.injEq] at hc
  exact hc

theorem acceptSavePath_facts (h : Host) (t : State) :
    (acceptSavePath h t).calls = t.calls ++
        (if t.comboTTM_currentIndex ≠ 1 ∧ t.defaultSavePathCheckBox_checked = true then
          [Call.setDefaultSavePath t.selectedPath] else [])
    ∧ (acceptSavePath h t).m_torrentParams.useAutoTMM
        = (if t.comboTTM_currentIndex = 1 then TriStateBool.True else TriStateBool.False)
    ∧ (acceptSavePath h t).m_torrentParams.savePath
        = (if t.comboTTM_currentIndex ≠ 1 then t.selectedPath else t.m_torrentParams.savePath)
    ∧ (acceptSavePath h t).m_torrentParams.addPaused = t.m_torrentParams.addPaused
    ∧ (acceptSavePath h t).m_hasMetadata = t.m_hasMetadata
    ∧ (acceptSavePath h t).m_hash = t.m_hash
    ∧ (acceptSavePath h t).m_torrentInfo = t.m_torrentInfo
    ∧ (acceptSavePath h t).m_torrentGuard = t.m_torrentGuard := by
  by_cases hi : t.comboTTM_currentIndex = 1
  · have hauto : acceptSavePath h t = { t with m_torrentParams :=
        { t.m_torrentParams with useAutoTMM := TriStateBool.True } } := by
      unfold acceptSavePath
      dsimp only
      rw [if_neg (not_not.mpr hi)]
    rw [hauto, if_neg (fun hx => hx.1 hi), if_pos hi, if_neg (not_not.mpr hi), List.append_nil]
    exact ⟨rfl, rfl, rfl, rfl, rfl, rfl, rfl, rfl⟩
  · unfold acceptSavePath
    dsimp only
    rw [if_pos hi, if_neg hi, if_pos hi]
    generalize hg : saveSavePathHistory h _ = Y
    have hY := handOff_fields (hg ▸ handOff_saveSavePathHistory h _)
    obtain ⟨a1, a2, a3, a4, a5, a6, _, a8, _⟩ := hY
    have b1 : Y.calls = t.calls := a1
    have b2 : Y.m_torrentParams.useAutoTMM = TriStateBool.False := by rw [a2]
    have b3 : Y.m_torrentParams.savePath = t.selectedPath := by rw [a2]
    have b4 : Y.m_torrentParams.addPaused = t.m_torrentParams.addPaused := by rw [a2]
    have b5 : Y.m_hasMetadata = t.m_hasMetadata := a3
    have b6 : Y.m_hash = t.m_hash := a4
    have b7 : Y.m_torrentInfo = t.m_torrentInfo := a5
    have b8 : Y.m_torrentGuard = t.m_torrentGuard := a6
    have b9 : Y.defaultSavePathCheckBox_checked = t.defaultSavePathCheckBox_checked := a8
    clear a1 a2 a3 a4 a5 a6 a8 hg
    by_cases hd : t.defaultSavePathCheckBox_checked = true
    · rw [if_pos (b9.trans hd), if_pos ⟨hi, hd⟩]
      refine ⟨?_, b2, b3, b4, b5, b6, b7, b8⟩
      show Y.calls ++ _ = _
      rw [b1]
    · rw [if_neg (fun hx => hd (b9.symm.trans hx)), if_neg (fun hx => hd hx.2), List.append_nil]
      exact ⟨b1, b2, b3, b4, b5, b6, b7, b8⟩

theorem acceptHandOff_facts (u : State) :
    (acceptHandOff u).calls = u.calls ++
        [if u.m_hasMetadata then Call.addTorrentInfo u.m_torrentInfo u.m_torrentParams
          else Call.addTorrentHash u.m_hash u.m_torrentParams,
         Call.markAsAddedToSession, Call.dialogAccept]
    ∧ (acceptHandOff u).m_torrentParams = u.m_torrentParams
    ∧ (acceptHandOff u).m_torrentGuard
        = u.m_torrentGuard.map (fun (g : TorrentFileGuard) => { g with wasAdded := true }) := by
  cases hm : u.m_hasMetadata
  · have hx : acceptHandOff u =
        (let v : State := { u with settings := { u.settings with enabled := !u.never_show_cb_checked } }
         { ((v.call (Call.addTorrentHash v.m_hash v.m_torrentParams)).call
              Call.markAsAddedToSession) with
            m_torrentGuard :=
              u.m_torrentGuard.map (fun (g : TorrentFileGuard) => { g with wasAdded := true })
          }.call Call.dialogAccept) := by
      unfold acceptHandOff
      dsimp only
      rw [hm]
      rfl
    rw [hx]
    dsimp only [State.call]
    rw [List.append_assoc, List.append_assoc]
    exact ⟨rfl, rfl, rfl⟩
  · have hx : acceptHandOff u =
        (let v : State := { u with settings := { u.settings with enabled := !u.never_show_cb_checked } }
         { ((v.call (Call.addTorrentInfo v.m_torrentInfo v.m_torrentParams)).call
              Call.markAsAddedToSession) with
            m_torrentGuard :=
              u.m_torrentGuard.map (fun (g : TorrentFileGuard) => { g with wasAdded := true })
          }.call Call.dialogAccept) := by
      unfold acceptHandOff
      dsimp only
      rw [hm]
      rfl
    rw [hx]
    dsimp only [State.call]
    rw [List.append_assoc, List.append_assoc]
    exact ⟨rfl, rfl, rfl⟩

/-- C14: accept calls Session::addTorrent exactly once, with the hash when m_hasMetadata is
false and with the metadata snapshot otherwise, and with the parameter bundle as accept
leaves it: useAutoTMM is True when the mode index is 1 and False otherwise, savePath is
the selected path in manual mode and the value it had before in automatic mode, addPaused
is the negation of the start torrent checkbox.  The guard is marked as added to the
session once, after the hand-off and before the dialog is accepted. -/
theorem accept_hands_torrent_to_session (h : Host) (s : State) :
    (accept h s).calls = s.calls
        ++ (if s.m_hasMetadata then [] else [Call.disconnectMetadataLoaded])
        ++ (if s.comboTTM_currentIndex ≠ 1 ∧ s.defaultSavePathCheckBox_checked = true then
              [Call.setDefaultSavePath s.selectedPath] else [])
        ++ [if s.m_hasMetadata then Call.addTorrentInfo s.m_torrentInfo (accept h s).m_torrentParams
              else Call.addTorrentHash s.m_hash (accept h s).m_torrentParams,
            Call.markAsAddedToSession, Call.dialogAccept]
    ∧ (((accept h s).calls.drop s.calls.length).filter Call.isAddTorrent).length = 1
    ∧ (((accept h s).calls.drop s.calls.length).filter
        (fun c => c == Call.markAsAddedToSession)).length = 1
    ∧ (accept h s).m_torrentParams.useAutoTMM
        = (if s.comboTTM_currentIndex = 1 then TriStateBool.True else TriStateBool.False)
    ∧ (accept h s).m_torrentParams.savePath
        = (if s.comboTTM_currentIndex ≠ 1 then s.selectedPath else s.m_torrentParams.savePath)
    ∧ (accept h s).m_torrentParams.addPaused
        = TriStateBool.ofBool (!s.startTorrentCheckBox_checked)
    ∧ (accept h s).m_torrentGuard
        = s.m_torrentGuard.map (fun (g : TorrentFileGuard) => { g with wasAdded := true }) := by
  obtain ⟨c1, c2, c3, c4, c5, c6, c7, c8, c9⟩ := acceptCapture_facts s
  have c0 := acceptCapture_calls s
  have c10 : (acceptCapture s).selectedPath = s.selectedPath := c9
  obtain ⟨p0, p1, p2, p3, p4, p5, p6, p7⟩ := acceptSavePath_facts h (acceptCapture s)
  obtain ⟨q0, q1, q2⟩ := acceptHandOff_facts (acceptSavePath h (acceptCapture s))
  have hcalls : (accept h s).calls = s.calls
        ++ (if s.m_hasMetadata then [] else [Call.disconnectMetadataLoaded])
        ++ (if s.comboTTM_currentIndex ≠ 1 ∧ s.defaultSavePathCheckBox_checked = true then
              [Call.setDefaultSavePath s.selectedPath] else [])
        ++ [if s.m_hasMetadata then Call.addTorrentInfo s.m_torrentInfo (accept h s).m_torrentParams
              else Call.addTorrentHash s.m_hash (accept h s).m_torrentParams,
            Call.markAsAddedToSession, Call.dialogAccept] := by
    have hp : (accept h s).m_torrentParams = (acceptSavePath h (acceptCapture s)).m_torrentParams := q1
    rw [hp]
    show (acceptHandOff _).calls = _
    rw [q0, p0, c0, p4, p5, p6, c3, c4, c5, c7, c8, c10]
  refine ⟨hcalls, ?_, ?_, ?_, ?_, ?_, ?_⟩
  · rw [hcalls, List.append_assoc, List.append_assoc, List.drop_left]
    cases s.m_hasMetadata <;>
      by_cases hx : s.comboTTM_currentIndex ≠ 1 ∧ s.defaultSavePathCheckBox_checked = true <;>
      simp [hx, Call.isAddTorrent]
  · rw [hcalls, List.append_assoc, List.append_assoc, List.drop_left]
    cases s.m_hasMetadata <;>
      by_cases hx : s.comboTTM_currentIndex ≠ 1 ∧ s.defaultSavePathCheckBox_checked = true <;>
      simp [hx]
  · show (acceptHandOff _).m_torrentParams.useAutoTMM = _
    rw [q1, p1, c7]
  · show (acceptHandOff _).m_torrentParams.savePath = _
    rw [q1, p2, c7, c2, c10]
  · show (acceptHandOff _).m_torrentParams.addPaused = _
    rw [q1, p3, c1]
  · show (acceptHandOff _).m_torrentGuard = _
    rw [q2, p7, c6]

/-! ## Renames that go wrong -/

/-- C15 at the failing input: in the torrent with the files a/b/c.txt, a/bc/d.txt and
a/b.txt the folder a/b is renamed to y.  The file a/b/c.txt under the folder becomes
a/y/c.txt; the file a/bc/d.txt of the sibling folder bc becomes a/y/c/d.txt and the
sibling file a/b.txt becomes a/y/.txt, although neither is under a/b. -/
theorem folder_rename_moves_like_named_siblings :
    (siblingLoaded [[0, 0]]).rowName [0, 0] = some "b".toList
    ∧ (siblingLoaded [[0, 0]]).filePaths
        = ["a/b/c.txt".toList, "a/bc/d.txt".toList, "a/b.txt".toList]
    ∧ (renameSelectedFile siblingHost true "y".toList (siblingLoaded [[0, 0]])).filePaths
        = ["a/y/c.txt".toList, "a/y/c/d.txt".toList, "a/y/.txt".toList]
    ∧ (renameSelectedFile siblingHost true "y".toList (siblingLoaded [[0, 0]])).calls
        = [Call.renameFile 0 "a/y/c.txt".toList, Call.renameFile 1 "a/y/c/d.txt".toList,
           Call.renameFile 2 "a/y/.txt".toList, Call.setData [0, 0] "y".toList] := by
  decide

/-- C16 at the failing input: in the example torrent the file a/x is renamed and the name
entered is the temporary-file suffix .!qB alone.  The name passes the validation, the
suffix is chopped afterwards, and renameFile is called with the path a/: the directory
prefix a/ is unchanged and the final name is empty.  A name that only ends with the
suffix, z.!qB, gives the path a/z. -/
theorem rename_to_suffix_gives_empty_name :
    (exampleLoaded [[0, 1]]).m_torrentInfo.filePath 1 = "a/x".toList
    ∧ exampleHost.QB_EXT = ".!qB".toList
    ∧ exampleHost.isValidFileSystemName ".!qB".toList = true
    ∧ (renameSelectedFile exampleHost true ".!qB".toList (exampleLoaded [[0, 1]])).calls
        = [Call.renameFile 1 "a/".toList, Call.setData [0, 1] []]
    ∧ (renameSelectedFile exampleHost true ".!qB".toList
        (exampleLoaded [[0, 1]])).m_torrentInfo.filePath 1 = "a/".toList
    ∧ (renameSelectedFile exampleHost true ".!qB".toList
        (exampleLoaded [[0, 1]])).m_torrentInfo.fileName 1 = []
    ∧ (renameSelectedFile exampleHost true "z.!qB".toList (exampleLoaded [[0, 1]])).calls
        = [Call.renameFile 1 "a/z".toList, Call.setData [0, 1] "z".toList] := by
  decide

/-! ## The selection after a switch of the management mode -/

/-- C17 at the failing input: the dialog is created with the save path /cs supplied by the
caller, so the manual list is /cs, /d, /h1, /h2, and the user selects entry 2.  After
TMMChanged(1) and TMMChanged(0) the list is the same, but the selected entry is entry 0,
the path of the caller: populateSavePathComboBox selects it through setSavePath, which
overwrites the remembered index.  Without a save path of the caller the same steps leave
entry 2 selected. -/
theorem caller_path_takes_over_selection :
    exampleCallerPath.comboTTM_currentIndex = 0
    ∧ exampleCallerPath.savePath_items
        = ["/cs".toList, "/d".toList, "/h1".toList, "/h2".toList]
    ∧ (selectSavePathEntry exampleHost 2 exampleCallerPath).savePath_currentIndex = 2
    ∧ (selectSavePathEntry exampleHost 2 exampleCallerPath).m_oldIndex = 2
    ∧ (TMMChanged exampleHost 0 (TMMChanged exampleHost 1
        (selectSavePathEntry exampleHost 2 exampleCallerPath))).savePath_items
        = ["/cs".toList, "/d".toList, "/h1".toList, "/h2".toList]
    ∧ (TMMChanged exampleHost 0 (TMMChanged exampleHost 1
        (selectSavePathEntry exampleHost 2 exampleCallerPath))).savePath_currentIndex = 0
    ∧ (TMMChanged exampleHost 0 (TMMChanged exampleHost 1
        (selectSavePathEntry exampleHost 2 exampleCallerPath))).selectedPath = "/cs".toList
    ∧ (exampleLoaded []).savePath_items = ["/d".toList, "/h1".toList, "/h2".toList]
    ∧ (TMMChanged exampleHost 0 (TMMChanged exampleHost 1
        (selectSavePathEntry exampleHost 2 (exampleLoaded [])))).savePath_currentIndex = 2 := by
  decide

end AddNewTorrentDialog
